import Mathlib

/-!
The program cron-translator: from a schedule description to a cron expression.

A shallow embedding of `main.go`.  Go strings are modelled as Lean strings
(text in UTF-8, in which the ASCII bytes `:`, `+`, `-` and the digits occur only
as themselves), Go `int` values that are only compared and printed are modelled
as `Int`, and a Go `(value, error)` result is modelled as `Except String value`,
the error being represented by its message (`err.Error()`); in every failing
path of the program the value returned next to the error is the zero value.

Library functions used by the program are modelled by the definitions of the
first section: `strings.Split` with the one-byte separator `":"`,
`strings.Join`, `strconv.Atoi` and the `%d` verb of `fmt.Sprintf`.
-/

namespace CronTranslator

/-! ## Library functions -/

/-- The `%d` verb of `fmt.Sprintf` on an `int`: decimal digits, with a leading
`-` for a negative number. -/
def fmtInt : Int → String
  | Int.ofNat n => Nat.repr n
  | Int.negSucc n => "-" ++ Nat.repr (n + 1)

/-- The function `strings.Join`: the elements separated by `sep`. -/
def stringsJoin : List String → String → String
  | [], _ => ""
  | [a], _ => a
  | a :: b :: rest, sep => a ++ sep ++ stringsJoin (b :: rest) sep

/-- Splitting a character sequence at every occurrence of `sep`; a sequence
with `n` separators yields `n + 1` pieces. -/
def splitChars (sep : Char) : List Char → List (List Char)
  | [] => [[]]
  | c :: cs =>
    if c = sep then [] :: splitChars sep cs
    else
      match splitChars sep cs with
      | [] => [[c]]
      | p :: ps => (c :: p) :: ps

/-- The function `strings.Split` for a separator of one ASCII character. -/
def stringsSplit (s : String) (sep : Char) : List String :=
  (splitChars sep s.data).map String.mk

/-- The value of a decimal digit, `none` for every other character
(`ch -= '0'; if ch > 9 { syntax error }`). -/
def digitVal (c : Char) : Option Nat :=
  if 48 ≤ c.toNat ∧ c.toNat ≤ 57 then some (c.toNat - 48) else none

/-- The digit loop of `strconv.Atoi`: `n = n*10 + int(ch)` from the left. -/
def parseDigits : List Char → Nat → Option Nat
  | [], n => some n
  | c :: cs, n =>
    match digitVal c with
    | some d => parseDigits cs (n * 10 + d)
    | none => none

/-- The function `strconv.Atoi` on a 64-bit platform: an optional sign `+` or `-`, then
at least one decimal digit; `none` stands for a syntax or range error. -/
def atoi (s : String) : Option Int :=
  match s.data with
  | [] => none
  | c :: cs =>
    let digits := if c = '-' ∨ c = '+' then cs else c :: cs
    match digits with
    | [] => none
    | d :: ds =>
      match parseDigits (d :: ds) 0 with
      | none => none
      | some n =>
        let v : Int := if c = '-' then -(n : Int) else (n : Int)
        if -(2 ^ 63 : Int) ≤ v ∧ v < (2 ^ 63 : Int) then some v else none

/-! ## The program -/

/-- The function `joinInts`: a list of integers as a comma-separated string. -/
def joinInts (nums : List Int) : String :=
  stringsJoin (nums.map fmtInt) ","

/-- The table `daysMap`: a lookup returns the code and whether the key exists. -/
def daysMap (day : String) : Option Int :=
  if day = "Sunday" then some 0
  else if day = "Monday" then some 1
  else if day = "Tuesday" then some 2
  else if day = "Wednesday" then some 3
  else if day = "Thursday" then some 4
  else if day = "Friday" then some 5
  else if day = "Saturday" then some 6
  else none

/-- The loop of `translateDaysOfWeek`, `result` being the codes appended so far. -/
def translateDaysLoop : List String → List Int → Except String (List Int)
  | [], result => .ok result
  | day :: rest, result =>
    match daysMap day with
    | some num => translateDaysLoop rest (result ++ [num])
    | none => .error ("invalid day of the week: " ++ day)

/-- The function `translateDaysOfWeek`: day names to their cron codes. -/
def translateDaysOfWeek (days : List String) : Except String (List Int) :=
  translateDaysLoop days []

/-- The loop of `translateDaysOfWeek` with both values it returns, as in the source: the
codes, `[]` standing for the `nil` slice, and the error, `none` standing for `nil`. -/
def translateDaysLoopPair : List String → List Int → List Int × Option String
  | [], result => (result, none)
  | day :: rest, result =>
    match daysMap day with
    | some num => translateDaysLoopPair rest (result ++ [num])
    | none => ([], some ("invalid day of the week: " ++ day))

/-- The function `translateDaysOfWeek` with both values it returns. -/
def translateDaysOfWeekPair (days : List String) : List Int × Option String :=
  translateDaysLoopPair days []

/-- The type `ScheduleInput`. -/
structure ScheduleInput where
  /-- The field `Type`: Daily, Weekly, Monthly, Hourly, Minutes. -/
  Type_ : String
  TimeRange : String × String
  MinuteRange : Int × Int
  DaysOfWeek : List String
  Dates : List Int
  Interval : Int
  deriving DecidableEq

/-- The function `parseTime`. -/
def parseTime (time : String) : Except String (Int × Int) :=
  match stringsSplit time ':' with
  | [p0, p1] =>
    match atoi p0 with
    | none => .error "invalid hour value"
    | some hour =>
      if hour < 0 ∨ hour > 23 then .error "invalid hour value"
      else
        match atoi p1 with
        | none => .error "invalid minute value"
        | some minute =>
          if minute < 0 ∨ minute > 59 then .error "invalid minute value"
          else .ok (hour, minute)
  | _ => .error "invalid time format, must be HH:mm"

/-- The expression `minuteExpr` computed by the four range branches. -/
def minuteExpr (minuteRange : Int × Int) : String :=
  if minuteRange.1 ≠ 0 ∨ minuteRange.2 ≠ 59 then
    fmtInt minuteRange.1 ++ "-" ++ fmtInt minuteRange.2
  else "*"

/-- The function `parseDailyWithRange`. -/
def parseDailyWithRange (timeRange : String × String) (minuteRange : Int × Int) :
    Except String String :=
  match parseTime timeRange.1 with
  | .error err => .error err
  | .ok (startHour, _) =>
    match parseTime timeRange.2 with
    | .error err => .error err
    | .ok (endHour, _) =>
      .ok (minuteExpr minuteRange ++ " " ++ fmtInt startHour ++ "-" ++ fmtInt endHour ++ " * * *")

/-- The function `parseWeeklyWithRange`. -/
def parseWeeklyWithRange (timeRange : String × String) (minuteRange : Int × Int)
    (daysOfWeek : List String) : Except String String :=
  match parseTime timeRange.1 with
  | .error err => .error err
  | .ok (startHour, _) =>
    match parseTime timeRange.2 with
    | .error err => .error err
    | .ok (endHour, _) =>
      match translateDaysOfWeek daysOfWeek with
      | .error err => .error err
      | .ok dayInts =>
        .ok (minuteExpr minuteRange ++ " " ++ fmtInt startHour ++ "-" ++ fmtInt endHour
          ++ " * * " ++ joinInts dayInts)

/-- The function `parseMonthlyWithRange`. -/
def parseMonthlyWithRange (timeRange : String × String) (minuteRange : Int × Int)
    (dates : List Int) : Except String String :=
  match parseTime timeRange.1 with
  | .error err => .error err
  | .ok (startHour, _) =>
    match parseTime timeRange.2 with
    | .error err => .error err
    | .ok (endHour, _) =>
      .ok (minuteExpr minuteRange ++ " " ++ fmtInt startHour ++ "-" ++ fmtInt endHour
        ++ " " ++ joinInts dates ++ " * *")

/-- The function `parseHourlyWithRange`. -/
def parseHourlyWithRange (timeRange : String × String) (minuteRange : Int × Int) :
    Except String String :=
  match parseTime timeRange.1 with
  | .error err => .error err
  | .ok (startHour, _) =>
    match parseTime timeRange.2 with
    | .error err => .error err
    | .ok (endHour, _) =>
      .ok (minuteExpr minuteRange ++ " " ++ fmtInt startHour ++ "-" ++ fmtInt endHour ++ " * * *")

/-- The function `parseMinutes`. -/
def parseMinutes (interval : Int) : Except String String :=
  if interval < 1 ∨ interval > 59 then
    .error "invalid minute interval: must be between 1 and 59"
  else .ok ("*/" ++ fmtInt interval ++ " * * * *")

/-- The function `generateCron`. -/
def generateCron (input : ScheduleInput) : Except String String :=
  if input.Type_ = "Daily" then parseDailyWithRange input.TimeRange input.MinuteRange
  else if input.Type_ = "Weekly" then
    parseWeeklyWithRange input.TimeRange input.MinuteRange input.DaysOfWeek
  else if input.Type_ = "Monthly" then
    parseMonthlyWithRange input.TimeRange input.MinuteRange input.Dates
  else if input.Type_ = "Hourly" then parseHourlyWithRange input.TimeRange input.MinuteRange
  else if input.Type_ = "Minutes" then parseMinutes input.Interval
  else .error "invalid schedule type"

/-- The type `APIResponse`. -/
structure APIResponse where
  CronType : String
  Cron : String
  Translation : String
  Error : String
  deriving DecidableEq

/-- The opening of a translation, shared by four branches of `translateCron`:
the time window, then the minute window unless it is `(0, 59)`. -/
def translateOpening (input : ScheduleInput) : String :=
  "Every minute between " ++ input.TimeRange.1 ++ " and " ++ input.TimeRange.2 ++ " " ++
    (if input.MinuteRange.1 ≠ 0 ∨ input.MinuteRange.2 ≠ 59 then
      "from minute " ++ fmtInt input.MinuteRange.1 ++ " to " ++ fmtInt input.MinuteRange.2 ++ " "
    else "")

/-- The function `translateCron`. -/
def translateCron (input : ScheduleInput) : String :=
  if input.Type_ = "Daily" then translateOpening input ++ "every day."
  else if input.Type_ = "Hourly" then translateOpening input ++ "every hour."
  else if input.Type_ = "Minutes" then "Every " ++ fmtInt input.Interval ++ " minutes."
  else if input.Type_ = "Weekly" then
    translateOpening input ++ ("on " ++ stringsJoin input.DaysOfWeek ", " ++ ".")
  else if input.Type_ = "Monthly" then
    translateOpening input ++ ("on the " ++ joinInts input.Dates ++ " of the month.")
  else ""

/-- The function `handleGenerateCron`. -/
def handleGenerateCron (input : ScheduleInput) : APIResponse :=
  match generateCron input with
  | .error err => { CronType := input.Type_, Cron := "", Translation := "", Error := err }
  | .ok cron =>
    { CronType := input.Type_, Cron := cron, Translation := translateCron input, Error := "" }

/-- Equality of results is decidable, so that results can be compared on concrete inputs. -/
instance decEqExcept {ε α : Type} [DecidableEq ε] [DecidableEq α] : DecidableEq (Except ε α)
  | .ok a, .ok b => if h : a = b then isTrue (by rw [h]) else isFalse (fun h2 => h (Except.ok.inj h2))
  | .error a, .error b =>
    if h : a = b then isTrue (by rw [h]) else isFalse (fun h2 => h (Except.error.inj h2))
  | .ok _, .error _ => isFalse (fun h => by cases h)
  | .error _, .ok _ => isFalse (fun h => by cases h)

/-! ## Notions used to state the properties -/

/-- The seven canonical weekday names, Sunday first: the position of a name in this
list is its cron code. -/
def canonicalDays : List String :=
  ["Sunday", "Monday", "Tuesday", "Wednesday", "Thursday", "Friday", "Saturday"]

/-- The numeric code of a canonical weekday name: Sunday is 0, Saturday is 6. -/
def dayCode (day : String) : Int :=
  (canonicalDays.indexOf day : Nat)

/-- The ten decimal digits in increasing order: the position of a digit is its value. -/
def decimalDigits : List Char := ['0', '1', '2', '3', '4', '5', '6', '7', '8', '9']

/-- The two-digit, zero-padded decimal rendering of a number below 100. -/
def pad2 (n : Nat) : String := String.mk [Nat.digitChar (n / 10), Nat.digitChar (n % 10)]

/-- The number of `:` characters of a string. -/
def colonCount (s : String) : Nat := s.data.count ':'

/-- The text before the first `:`. -/
def hourPart (s : String) : String := String.mk (s.data.takeWhile (fun c => c != ':'))

/-- The text after the first `:`. -/
def minutePart (s : String) : String :=
  String.mk ((s.data.dropWhile (fun c => c != ':')).drop 1)

/-- The text of an integer literal without its sign. -/
def literalBody (s : String) : List Char :=
  if s.data.head? = some '+' ∨ s.data.head? = some '-' then s.data.tail else s.data

/-- An integer literal: an optional sign, then one or more decimal digits. -/
def isIntLiteral (s : String) : Bool :=
  !(literalBody s).isEmpty && (literalBody s).all (fun c => decimalDigits.contains c)

/-- The integer an integer literal denotes. -/
def literalValue (s : String) : Int :=
  let n : Nat := Nat.ofDigits 10 ((literalBody s).reverse.map (fun c => decimalDigits.indexOf c))
  if s.data.head? = some '-' then -(n : Int) else (n : Int)

/-- The decision procedure of `parseTime` as the specification words it. -/
def parseTimeSpec (s : String) : Except String (Int × Int) :=
  if colonCount s ≠ 1 then .error "invalid time format, must be HH:mm"
  else if ¬ (isIntLiteral (hourPart s) = true ∧ 0 ≤ literalValue (hourPart s) ∧
      literalValue (hourPart s) ≤ 23) then .error "invalid hour value"
  else if ¬ (isIntLiteral (minutePart s) = true ∧ 0 ≤ literalValue (minutePart s) ∧
      literalValue (minutePart s) ≤ 59) then .error "invalid minute value"
  else .ok (literalValue (hourPart s), literalValue (minutePart s))

/-- The pattern HH:MM of the specification: two decimal digits, a colon, two decimal
digits. -/
def matchesHHMM (s : String) : Bool :=
  match s.data with
  | [a, b, c, d, e] =>
    decimalDigits.contains a && decimalDigits.contains b && c == ':' &&
      decimalDigits.contains d && decimalDigits.contains e
  | _ => false

/-! ## Basic facts about strings and error messages -/

theorem append_eq_empty_iff (a b : String) : a ++ b = "" ↔ a = "" ∧ b = "" := by
  constructor
  · intro h
    have hd := congrArg String.data h
    simp only [String.data_append] at hd
    have hd2 : a.data ++ b.data = [] := hd
    rw [List.append_eq_nil] at hd2
    exact ⟨String.ext hd2.1, String.ext hd2.2⟩
  · rintro ⟨rfl, rfl⟩
    rfl

theorem parseTime_error_cases (s e : String) (h : parseTime s = .error e) :
    e = "invalid time format, must be HH:mm" ∨ e = "invalid hour value" ∨
      e = "invalid minute value" := by
  unfold parseTime at h
  split at h
  · split at h
    · injection h with h; simp [← h]
    · split at h
      · injection h with h; simp [← h]
      · split at h
        · injection h with h; simp [← h]
        · split at h
          · injection h with h; simp [← h]
          · cases h
  · injection h with h; simp [← h]

theorem parseTime_error_ne_empty (s e : String) (h : parseTime s = .error e) : e ≠ "" := by
  rcases parseTime_error_cases s e h with rfl | rfl | rfl <;> decide

theorem translateDaysLoop_error (days : List String) (acc : List Int) (e : String)
    (h : translateDaysLoop days acc = .error e) :
    ∃ day, day ∈ days ∧ e = "invalid day of the week: " ++ day := by
  induction days generalizing acc with
  | nil => simp [translateDaysLoop] at h
  | cons d rest ih =>
    unfold translateDaysLoop at h
    split at h
    · obtain ⟨day, hm, he⟩ := ih _ h
      exact ⟨day, List.mem_cons_of_mem _ hm, he⟩
    · injection h with h
      exact ⟨d, List.mem_cons_self _ _, h.symm⟩

theorem translateDaysOfWeek_error_ne_empty (days : List String) (e : String)
    (h : translateDaysOfWeek days = .error e) : e ≠ "" := by
  obtain ⟨day, _, rfl⟩ := translateDaysLoop_error days [] e h
  simp [append_eq_empty_iff]

/-- What the two range branches without a list compute, in one expression. -/
theorem parseDailyWithRange_cases (tr : String × String) (mr : Int × Int) :
    (∃ e, parseTime tr.1 = .error e ∧ parseDailyWithRange tr mr = .error e) ∨
    (∃ h m e, parseTime tr.1 = .ok (h, m) ∧ parseTime tr.2 = .error e ∧
      parseDailyWithRange tr mr = .error e) ∨
    (∃ hs ms he me, parseTime tr.1 = .ok (hs, ms) ∧ parseTime tr.2 = .ok (he, me) ∧
      parseDailyWithRange tr mr =
        .ok (minuteExpr mr ++ " " ++ fmtInt hs ++ "-" ++ fmtInt he ++ " * * *")) := by
  unfold parseDailyWithRange
  cases h1 : parseTime tr.1 with
  | error e => exact Or.inl ⟨e, rfl, rfl⟩
  | ok p1 =>
    obtain ⟨hs, ms⟩ := p1
    cases h2 : parseTime tr.2 with
    | error e => exact Or.inr (Or.inl ⟨hs, ms, e, rfl, rfl, rfl⟩)
    | ok p2 =>
      obtain ⟨he, me⟩ := p2
      exact Or.inr (Or.inr ⟨hs, ms, he, me, rfl, rfl, rfl⟩)

theorem parseHourlyWithRange_eq_daily (tr : String × String) (mr : Int × Int) :
    parseHourlyWithRange tr mr = parseDailyWithRange tr mr := rfl

theorem parseMonthlyWithRange_cases (tr : String × String) (mr : Int × Int) (dates : List Int) :
    (∃ e, parseTime tr.1 = .error e ∧ parseMonthlyWithRange tr mr dates = .error e) ∨
    (∃ h m e, parseTime tr.1 = .ok (h, m) ∧ parseTime tr.2 = .error e ∧
      parseMonthlyWithRange tr mr dates = .error e) ∨
    (∃ hs ms he me, parseTime tr.1 = .ok (hs, ms) ∧ parseTime tr.2 = .ok (he, me) ∧
      parseMonthlyWithRange tr mr dates =
        .ok (minuteExpr mr ++ " " ++ fmtInt hs ++ "-" ++ fmtInt he ++ " " ++ joinInts dates
          ++ " * *")) := by
  unfold parseMonthlyWithRange
  cases h1 : parseTime tr.1 with
  | error e => exact Or.inl ⟨e, rfl, rfl⟩
  | ok p1 =>
    obtain ⟨hs, ms⟩ := p1
    cases h2 : parseTime tr.2 with
    | error e => exact Or.inr (Or.inl ⟨hs, ms, e, rfl, rfl, rfl⟩)
    | ok p2 =>
      obtain ⟨he, me⟩ := p2
      exact Or.inr (Or.inr ⟨hs, ms, he, me, rfl, rfl, rfl⟩)

theorem parseWeeklyWithRange_cases (tr : String × String) (mr : Int × Int)
    (days : List String) :
    (∃ e, parseTime tr.1 = .error e ∧ parseWeeklyWithRange tr mr days = .error e) ∨
    (∃ h m e, parseTime tr.1 = .ok (h, m) ∧ parseTime tr.2 = .error e ∧
      parseWeeklyWithRange tr mr days = .error e) ∨
    (∃ hs ms he me e, parseTime tr.1 = .ok (hs, ms) ∧ parseTime tr.2 = .ok (he, me) ∧
      translateDaysOfWeek days = .error e ∧ parseWeeklyWithRange tr mr days = .error e) ∨
    (∃ hs ms he me dayInts, parseTime tr.1 = .ok (hs, ms) ∧ parseTime tr.2 = .ok (he, me) ∧
      translateDaysOfWeek days = .ok dayInts ∧
      parseWeeklyWithRange tr mr days =
        .ok (minuteExpr mr ++ " " ++ fmtInt hs ++ "-" ++ fmtInt he ++ " * * "
          ++ joinInts dayInts)) := by
  unfold parseWeeklyWithRange
  cases h1 : parseTime tr.1 with
  | error e => exact Or.inl ⟨e, rfl, rfl⟩
  | ok p1 =>
    obtain ⟨hs, ms⟩ := p1
    cases h2 : parseTime tr.2 with
    | error e => exact Or.inr (Or.inl ⟨hs, ms, e, rfl, rfl, rfl⟩)
    | ok p2 =>
      obtain ⟨he, me⟩ := p2
      cases h3 : translateDaysOfWeek days with
      | error e => exact Or.inr (Or.inr (Or.inl ⟨hs, ms, he, me, e, rfl, rfl, rfl, rfl⟩))
      | ok dayInts =>
        exact Or.inr (Or.inr (Or.inr ⟨hs, ms, he, me, dayInts, rfl, rfl, rfl, rfl⟩))

theorem generateCron_error_ne_empty (input : ScheduleInput) (e : String)
    (h : generateCron input = .error e) : e ≠ "" := by
  unfold generateCron at h
  split at h
  · rcases parseDailyWithRange_cases input.TimeRange input.MinuteRange with
      ⟨e1, h1, h2⟩ | ⟨_, _, e1, _, h1, h2⟩ | ⟨_, _, _, _, _, _, h2⟩
    · rw [h2] at h; injection h with h; subst h; exact parseTime_error_ne_empty _ _ h1
    · rw [h2] at h; injection h with h; subst h; exact parseTime_error_ne_empty _ _ h1
    · rw [h2] at h; cases h
  · split at h
    · rcases parseWeeklyWithRange_cases input.TimeRange input.MinuteRange input.DaysOfWeek with
        ⟨e1, h1, h2⟩ | ⟨_, _, e1, _, h1, h2⟩ | ⟨_, _, _, _, e1, _, _, h1, h2⟩ |
        ⟨_, _, _, _, _, _, _, _, h2⟩
      · rw [h2] at h; injection h with h; subst h; exact parseTime_error_ne_empty _ _ h1
      · rw [h2] at h; injection h with h; subst h; exact parseTime_error_ne_empty _ _ h1
      · rw [h2] at h; injection h with h; subst h
        exact translateDaysOfWeek_error_ne_empty _ _ h1
      · rw [h2] at h; cases h
    · split at h
      · rcases parseMonthlyWithRange_cases input.TimeRange input.MinuteRange input.Dates with
          ⟨e1, h1, h2⟩ | ⟨_, _, e1, _, h1, h2⟩ | ⟨_, _, _, _, _, _, h2⟩
        · rw [h2] at h; injection h with h; subst h; exact parseTime_error_ne_empty _ _ h1
        · rw [h2] at h; injection h with h; subst h; exact parseTime_error_ne_empty _ _ h1
        · rw [h2] at h; cases h
      · split at h
        · rw [parseHourlyWithRange_eq_daily] at h
          rcases parseDailyWithRange_cases input.TimeRange input.MinuteRange with
            ⟨e1, h1, h2⟩ | ⟨_, _, e1, _, h1, h2⟩ | ⟨_, _, _, _, _, _, h2⟩
          · rw [h2] at h; injection h with h; subst h; exact parseTime_error_ne_empty _ _ h1
          · rw [h2] at h; injection h with h; subst h; exact parseTime_error_ne_empty _ _ h1
          · rw [h2] at h; cases h
        · split at h
          · unfold parseMinutes at h
            split at h
            · injection h with h; subst h; decide
            · cases h
          · injection h with h; subst h; decide

theorem generateCron_ok_ne_empty (input : ScheduleInput) (c : String)
    (h : generateCron input = .ok c) : c ≠ "" := by
  unfold generateCron at h
  split at h
  · rcases parseDailyWithRange_cases input.TimeRange input.MinuteRange with
      ⟨_, _, h2⟩ | ⟨_, _, _, _, _, h2⟩ | ⟨_, _, _, _, _, _, h2⟩
    · rw [h2] at h; cases h
    · rw [h2] at h; cases h
    · rw [h2] at h; injection h with h; subst h; simp [append_eq_empty_iff]
  · split at h
    · rcases parseWeeklyWithRange_cases input.TimeRange input.MinuteRange input.DaysOfWeek with
        ⟨_, _, h2⟩ | ⟨_, _, _, _, _, h2⟩ | ⟨_, _, _, _, _, _, _, _, h2⟩ |
        ⟨_, _, _, _, _, _, _, _, h2⟩
      · rw [h2] at h; cases h
      · rw [h2] at h; cases h
      · rw [h2] at h; cases h
      · rw [h2] at h; injection h with h; subst h; simp [append_eq_empty_iff]
    · split at h
      · rcases parseMonthlyWithRange_cases input.TimeRange input.MinuteRange input.Dates with
          ⟨_, _, h2⟩ | ⟨_, _, _, _, _, h2⟩ | ⟨_, _, _, _, _, _, h2⟩
        · rw [h2] at h; cases h
        · rw [h2] at h; cases h
        · rw [h2] at h; injection h with h; subst h; simp [append_eq_empty_iff]
      · split at h
        · rw [parseHourlyWithRange_eq_daily] at h
          rcases parseDailyWithRange_cases input.TimeRange input.MinuteRange with
            ⟨_, _, h2⟩ | ⟨_, _, _, _, _, h2⟩ | ⟨_, _, _, _, _, _, h2⟩
          · rw [h2] at h; cases h
          · rw [h2] at h; cases h
          · rw [h2] at h; injection h with h; subst h; simp [append_eq_empty_iff]
        · split at h
          · unfold parseMinutes at h
            split at h
            · cases h
            · injection h with h; subst h; simp [append_eq_empty_iff]
          · cases h

theorem generateCron_ok_type (input : ScheduleInput) (c : String)
    (h : generateCron input = .ok c) :
    input.Type_ = "Daily" ∨ input.Type_ = "Weekly" ∨ input.Type_ = "Monthly" ∨
      input.Type_ = "Hourly" ∨ input.Type_ = "Minutes" := by
  by_contra hn
  simp only [not_or] at hn
  obtain ⟨h1, h2, h3, h4, h5⟩ := hn
  simp [generateCron, h1, h2, h3, h4, h5] at h

theorem translateOpening_ne_empty (input : ScheduleInput) : translateOpening input ≠ "" := by
  simp [translateOpening, append_eq_empty_iff]

theorem translateCron_ne_empty (input : ScheduleInput)
    (h : input.Type_ = "Daily" ∨ input.Type_ = "Weekly" ∨ input.Type_ = "Monthly" ∨
      input.Type_ = "Hourly" ∨ input.Type_ = "Minutes") : translateCron input ≠ "" := by
  have ho := translateOpening_ne_empty input
  rcases h with h | h | h | h | h <;>
    simp [translateCron, h, append_eq_empty_iff, ho]

/-! ## The time parser -/

theorem digitVal_eq (c : Char) :
    digitVal c = if decimalDigits.contains c then some (decimalDigits.indexOf c) else none := by
  unfold digitVal
  by_cases h : 48 ≤ c.toNat ∧ c.toNat ≤ 57
  · rw [if_pos h]
    obtain ⟨h1, h2⟩ := h
    have hc : c = Char.ofNat c.toNat := (Char.ofNat_toNat c).symm
    generalize c.toNat = n at *
    subst hc
    interval_cases n <;> decide
  · rw [if_neg h]
    have : decimalDigits.contains c = false := by
      by_contra hh
      simp only [Bool.not_eq_false, List.contains_eq_any_beq, List.any_eq_true, beq_iff_eq] at hh
      obtain ⟨x, hx, rfl⟩ := hh
      apply h
      simp only [decimalDigits, List.mem_cons, List.mem_singleton, List.not_mem_nil, or_false] at hx
      rcases hx with rfl | rfl | rfl | rfl | rfl | rfl | rfl | rfl | rfl | rfl <;> decide
    rw [this]
    simp

theorem parseDigits_eq (cs : List Char) (n : Nat) :
    parseDigits cs n =
      if cs.all (fun c => decimalDigits.contains c) then
        some (n * 10 ^ cs.length +
          Nat.ofDigits 10 (cs.reverse.map (fun c => decimalDigits.indexOf c)))
      else none := by
  induction cs generalizing n with
  | nil => simp [parseDigits]
  | cons c cs ih =>
    unfold parseDigits
    rw [digitVal_eq]
    by_cases hc : decimalDigits.contains c = true
    · rw [if_pos hc]
      simp only
      rw [ih]
      by_cases hall : cs.all (fun c => decimalDigits.contains c) = true
      · have : (c :: cs).all (fun c => decimalDigits.contains c) = true := by
          simp only [List.all_cons, hc, hall, Bool.and_self]
        rw [if_pos hall, if_pos this]
        simp only [List.reverse_cons, List.map_append, List.map_cons, List.map_nil,
          Nat.ofDigits_append, Nat.ofDigits_singleton, List.length_map, List.length_reverse,
          List.length_cons]
        congr 1
        ring
      · have : ¬ ((c :: cs).all (fun c => decimalDigits.contains c) = true) := by
          simp only [List.all_cons, hc, Bool.true_and]
          exact hall
        rw [if_neg hall, if_neg this]
    · rw [if_neg hc]
      have : ¬ ((c :: cs).all (fun c => decimalDigits.contains c) = true) := by
        simp only [List.all_cons, Bool.and_eq_true, not_and]
        intro h
        exact absurd h hc
      rw [if_neg this]

theorem atoi_eq (s : String) :
    atoi s =
      if isIntLiteral s = true ∧ -(2 ^ 63 : Int) ≤ literalValue s ∧ literalValue s < 2 ^ 63
      then some (literalValue s) else none := by
  obtain ⟨cs⟩ := s
  cases cs with
  | nil => simp [atoi, isIntLiteral, literalBody]
  | cons c cs =>
    have hb : literalBody ⟨c :: cs⟩ = if c = '-' ∨ c = '+' then cs else c :: cs := by
      simp only [literalBody, List.head?_cons, Option.some.injEq, List.tail_cons]
      by_cases h1 : c = '+'
      · simp [h1]
      · by_cases h2 : c = '-'
        · simp [h2]
        · simp [h1, h2]
    have hv : literalValue ⟨c :: cs⟩ =
        if c = '-' then
          -((Nat.ofDigits 10 ((literalBody ⟨c :: cs⟩).reverse.map
            (fun c => decimalDigits.indexOf c)) : Nat) : Int)
        else ((Nat.ofDigits 10 ((literalBody ⟨c :: cs⟩).reverse.map
            (fun c => decimalDigits.indexOf c)) : Nat) : Int) := by
      simp only [literalValue, List.head?_cons, Option.some.injEq]
    simp only [atoi, isIntLiteral, hv, hb]
    generalize (if c = '-' ∨ c = '+' then cs else c :: cs) = body
    cases body with
    | nil => simp
    | cons d ds =>
      simp only
      rw [parseDigits_eq]
      by_cases hall : (d :: ds).all (fun c => decimalDigits.contains c) = true
      · rw [if_pos hall]
        simp only [zero_mul, zero_add, List.isEmpty_cons, Bool.not_false, Bool.true_and, hall,
          true_and]
      · rw [if_neg hall]
        simp only [List.isEmpty_cons, Bool.not_false, Bool.true_and, hall, false_and, if_false]
        simp

theorem splitChars_ne_nil (sep : Char) (cs : List Char) : splitChars sep cs ≠ [] := by
  cases cs with
  | nil => simp [splitChars]
  | cons c cs =>
    unfold splitChars
    split
    · simp
    · split <;> simp

theorem splitChars_length (sep : Char) (cs : List Char) :
    (splitChars sep cs).length = cs.count sep + 1 := by
  induction cs with
  | nil => simp [splitChars]
  | cons c cs ih =>
    unfold splitChars
    by_cases h : c = sep
    · subst h
      simp [ih]
    · rw [if_neg h]
      have hc : (c :: cs).count sep = cs.count sep := by
        rw [List.count_cons]
        simp [h]
      rw [hc, ← ih]
      split
      · rename_i heq
        exact absurd heq (splitChars_ne_nil sep cs)
      · rename_i p ps heq
        rw [heq]
        simp

theorem splitChars_of_count_zero (sep : Char) (cs : List Char) (h : cs.count sep = 0) :
    splitChars sep cs = [cs] := by
  induction cs with
  | nil => simp [splitChars]
  | cons c cs ih =>
    have hne : c ≠ sep := by
      intro heq
      subst heq
      simp at h
    have hc : cs.count sep = 0 := by
      rw [List.count_cons] at h
      omega
    unfold splitChars
    rw [if_neg hne, ih hc]

theorem splitChars_of_count_one (sep : Char) (cs : List Char) (h : cs.count sep = 1) :
    splitChars sep cs =
      [cs.takeWhile (fun c => c != sep), (cs.dropWhile (fun c => c != sep)).drop 1] := by
  induction cs with
  | nil => simp at h
  | cons c cs ih =>
    unfold splitChars
    by_cases hc : c = sep
    · subst hc
      have h0 : cs.count c = 0 := by
        simp at h
        exact h
      rw [if_pos rfl, splitChars_of_count_zero c cs h0]
      simp
    · have h1 : cs.count sep = 1 := by
        rw [List.count_cons] at h
        simp [hc] at h
        exact h
      rw [if_neg hc, ih h1]
      simp [hc]

theorem parseTime_eq_spec (s : String) : parseTime s = parseTimeSpec s := by
  unfold parseTime parseTimeSpec
  by_cases hcount : colonCount s = 1
  · have hsplit : stringsSplit s ':' = [hourPart s, minutePart s] := by
      unfold stringsSplit hourPart minutePart
      rw [splitChars_of_count_one ':' s.data hcount]
      rfl
    rw [hsplit]
    rw [if_neg (not_not_intro hcount)]
    simp only
    rw [atoi_eq (hourPart s), atoi_eq (minutePart s)]
    by_cases hh : isIntLiteral (hourPart s) = true ∧ 0 ≤ literalValue (hourPart s) ∧
        literalValue (hourPart s) ≤ 23
    · have hh2 : isIntLiteral (hourPart s) = true ∧ -(2 ^ 63 : Int) ≤ literalValue (hourPart s) ∧
          literalValue (hourPart s) < 2 ^ 63 := ⟨hh.1, by omega, by omega⟩
      have hh3 : ¬ (literalValue (hourPart s) < 0 ∨ literalValue (hourPart s) > 23) := by omega
      rw [if_pos hh2, if_neg (not_not_intro hh)]
      simp only
      rw [if_neg hh3]
      by_cases hm : isIntLiteral (minutePart s) = true ∧ 0 ≤ literalValue (minutePart s) ∧
          literalValue (minutePart s) ≤ 59
      · have hm2 : isIntLiteral (minutePart s) = true ∧
            -(2 ^ 63 : Int) ≤ literalValue (minutePart s) ∧
            literalValue (minutePart s) < 2 ^ 63 := ⟨hm.1, by omega, by omega⟩
        have hm3 : ¬ (literalValue (minutePart s) < 0 ∨ literalValue (minutePart s) > 59) := by
          omega
        rw [if_pos hm2, if_neg (not_not_intro hm)]
        simp only
        rw [if_neg hm3]
      · rw [if_pos hm]
        split
        · rfl
        · rename_i minute hmin
          split at hmin
          · rename_i hlit
            injection hmin with hmin
            subst hmin
            have : literalValue (minutePart s) < 0 ∨ literalValue (minutePart s) > 59 := by
              by_contra hcon
              exact hm ⟨hlit.1, by omega, by omega⟩
            rw [if_pos this]
          · cases hmin
    · rw [if_pos hh]
      split
      · rfl
      · rename_i hour hhour
        split at hhour
        · rename_i hlit
          injection hhour with hhour
          subst hhour
          have : literalValue (hourPart s) < 0 ∨ literalValue (hourPart s) > 23 := by
            by_contra hcon
            exact hh ⟨hlit.1, by omega, by omega⟩
          rw [if_pos this]
        · cases hhour
  · rw [if_pos hcount]
    have hlen : (stringsSplit s ':').length ≠ 2 := by
      unfold stringsSplit
      rw [List.length_map, splitChars_length]
      unfold colonCount at hcount
      omega
    split
    · rename_i p0 p1 heq
      rw [heq] at hlen
      simp at hlen
    · rfl

theorem digitChar_facts (x : Nat) (hx : x < 10) :
    digitVal (Nat.digitChar x) = some x ∧ Nat.digitChar x ≠ ':' ∧ Nat.digitChar x ≠ '-' ∧
      Nat.digitChar x ≠ '+' := by
  interval_cases x <;> decide

theorem atoi_two_digits (a b : Nat) (ha : a < 10) (hb : b < 10) :
    atoi (String.mk [Nat.digitChar a, Nat.digitChar b]) = some ((a * 10 + b : Nat) : Int) := by
  obtain ⟨va, _, ma, pa⟩ := digitChar_facts a ha
  obtain ⟨vb, _, _, _⟩ := digitChar_facts b hb
  have hr : -(2 ^ 63 : Int) ≤ ((a * 10 + b : Nat) : Int) ∧
      ((a * 10 + b : Nat) : Int) < (2 ^ 63 : Int) := by
    constructor <;> omega
  simp only [atoi, ma, pa, or_self, if_false, parseDigits, va, vb, zero_mul, zero_add]
  rw [if_pos hr]

theorem parseTime_four_digits (a b c d : Nat) (ha : a < 10) (hb : b < 10) (hc : c < 10)
    (hd : d < 10) (hh : a * 10 + b ≤ 23) (hm : c * 10 + d ≤ 59) :
    parseTime (String.mk [Nat.digitChar a, Nat.digitChar b, ':', Nat.digitChar c,
      Nat.digitChar d]) = .ok (((a * 10 + b : Nat) : Int), ((c * 10 + d : Nat) : Int)) := by
  obtain ⟨_, ca, _, _⟩ := digitChar_facts a ha
  obtain ⟨_, cb, _, _⟩ := digitChar_facts b hb
  obtain ⟨_, cc, _, _⟩ := digitChar_facts c hc
  obtain ⟨_, cd, _, _⟩ := digitChar_facts d hd
  have hsplit : stringsSplit (String.mk [Nat.digitChar a, Nat.digitChar b, ':', Nat.digitChar c,
      Nat.digitChar d]) ':' =
      [String.mk [Nat.digitChar a, Nat.digitChar b],
       String.mk [Nat.digitChar c, Nat.digitChar d]] := by
    simp [stringsSplit, splitChars, ca, cb, cc, cd]
  have h1 : ¬ (((a * 10 + b : Nat) : Int) < 0 ∨ ((a * 10 + b : Nat) : Int) > 23) := by omega
  have h2 : ¬ (((c * 10 + d : Nat) : Int) < 0 ∨ ((c * 10 + d : Nat) : Int) > 59) := by omega
  unfold parseTime
  rw [hsplit]
  simp only
  rw [atoi_two_digits a b ha hb, atoi_two_digits c d hc hd]
  simp only
  rw [if_neg h1, if_neg h2]

/-- C3: for every hour in 0..23 and minute in 0..59, `parseTime` on the two-digit,
zero-padded string "hh:mm" succeeds and returns that hour and minute. -/
theorem parseTime_roundtrip (h m : Nat) (hh : h ≤ 23) (hm : m ≤ 59) :
    parseTime (pad2 h ++ ":" ++ pad2 m) = .ok ((h : Int), (m : Int)) := by
  have hs : pad2 h ++ ":" ++ pad2 m =
      String.mk [Nat.digitChar (h / 10), Nat.digitChar (h % 10), ':', Nat.digitChar (m / 10),
        Nat.digitChar (m % 10)] := by
    apply String.ext
    simp [pad2]
  have e1 : h / 10 * 10 + h % 10 = h := by omega
  have e2 : m / 10 * 10 + m % 10 = m := by omega
  have key := parseTime_four_digits (h / 10) (h % 10) (m / 10) (m % 10) (by omega) (by omega)
    (by omega) (by omega) (by omega) (by omega)
  rw [e1, e2] at key
  rw [hs]
  exact key

/-- The statement of C3 at 7 hours 5 minutes, the string "07:05". -/
theorem parseTime_roundtrip_witness :
    (7 ≤ 23 ∧ 5 ≤ 59) ∧ pad2 7 ++ ":" ++ pad2 5 = "07:05" ∧
      parseTime (pad2 7 ++ ":" ++ pad2 5) = .ok (((7 : Nat) : Int), ((5 : Nat) : Int)) :=
  ⟨by decide, by decide, parseTime_roundtrip 7 5 (by decide) (by decide)⟩

/-- C4, as stated, fails: the string "1:5" does not match the pattern HH:MM, and
`parseTime` accepts it as 1 hour 5 minutes; so does "+01:-0" as 1 hour 0 minutes. -/
theorem parseTime_accepts_non_HHMM :
    matchesHHMM "1:5" = false ∧ parseTime "1:5" = .ok (1, 5) ∧
    matchesHHMM "+01:-0" = false ∧ parseTime "+01:-0" = .ok (1, 0) := by
  decide

/-- C4, amended: `parseTime` returns an error for every string that does not have exactly
one colon, or whose text before or after the colon is not an integer literal (an optional
sign, then decimal digits), or whose hour is outside 0..23, or whose minute is outside
0..59. -/
theorem parseTime_rejects (s : String)
    (h : colonCount s ≠ 1 ∨ isIntLiteral (hourPart s) = false ∨
      isIntLiteral (minutePart s) = false ∨
      literalValue (hourPart s) < 0 ∨ 23 < literalValue (hourPart s) ∨
      literalValue (minutePart s) < 0 ∨ 59 < literalValue (minutePart s)) :
    ∃ e, parseTime s = .error e := by
  rw [parseTime_eq_spec]
  unfold parseTimeSpec
  by_cases h0 : colonCount s ≠ 1
  · exact ⟨_, if_pos h0⟩
  · rw [if_neg h0]
    by_cases h1 : ¬ (isIntLiteral (hourPart s) = true ∧ 0 ≤ literalValue (hourPart s) ∧
        literalValue (hourPart s) ≤ 23)
    · exact ⟨_, if_pos h1⟩
    · rw [if_neg h1]
      by_cases h2 : ¬ (isIntLiteral (minutePart s) = true ∧ 0 ≤ literalValue (minutePart s) ∧
          literalValue (minutePart s) ≤ 59)
      · exact ⟨_, if_pos h2⟩
      · exfalso
        rw [not_not] at h1 h2
        obtain ⟨a1, a2, a3⟩ := h1
        obtain ⟨b1, b2, b3⟩ := h2
        rcases h with h | h | h | h | h | h | h
        · exact h0 h
        · rw [a1] at h; cases h
        · rw [b1] at h; cases h
        · omega
        · omega
        · omega
        · omega

/-- The amended C4 at the string "24:00", whose hour is 24. -/
theorem parseTime_rejects_witness :
    (colonCount "24:00" ≠ 1 ∨ isIntLiteral (hourPart "24:00") = false ∨
      isIntLiteral (minutePart "24:00") = false ∨
      literalValue (hourPart "24:00") < 0 ∨ 23 < literalValue (hourPart "24:00") ∨
      literalValue (minutePart "24:00") < 0 ∨ 59 < literalValue (minutePart "24:00")) ∧
    ∃ e, parseTime "24:00" = .error e :=
  ⟨by decide, parseTime_rejects "24:00" (by decide)⟩

/-- C5: `parseTime` decides in a fixed order: it fails with "invalid time format, must
be HH:mm" exactly when the string does not contain exactly one colon; otherwise with
"invalid hour value" exactly when the text before the colon is not an integer literal
with a value in 0..23; otherwise with "invalid minute value" exactly when the text after
the colon is not an integer literal with a value in 0..59; otherwise it returns the two
values. -/
theorem parseTime_decision_order (s : String) :
    parseTime s =
      if colonCount s ≠ 1 then .error "invalid time format, must be HH:mm"
      else if ¬ (isIntLiteral (hourPart s) = true ∧ 0 ≤ literalValue (hourPart s) ∧
          literalValue (hourPart s) ≤ 23) then .error "invalid hour value"
      else if ¬ (isIntLiteral (minutePart s) = true ∧ 0 ≤ literalValue (minutePart s) ∧
          literalValue (minutePart s) ≤ 59) then .error "invalid minute value"
      else .ok (literalValue (hourPart s), literalValue (minutePart s)) :=
  parseTime_eq_spec s

/-! ## The response adapter -/

/-- C1: the record returned by `handleGenerateCron` echoes the input type; when
`generateCron` fails with message `e` it has empty cron and translation and carries `e`,
and when `generateCron` returns `c` it has cron `c`, the translation of the input and an
empty error. -/
theorem handleGenerateCron_contract (input : ScheduleInput) :
    (handleGenerateCron input).CronType = input.Type_ ∧
    (∀ e, generateCron input = .error e →
      (handleGenerateCron input).Cron = "" ∧ (handleGenerateCron input).Translation = "" ∧
        (handleGenerateCron input).Error = e) ∧
    (∀ c, generateCron input = .ok c →
      (handleGenerateCron input).Cron = c ∧
        (handleGenerateCron input).Translation = translateCron input ∧
        (handleGenerateCron input).Error = "") := by
  unfold handleGenerateCron
  cases h : generateCron input with
  | error e =>
    refine ⟨rfl, ?_, ?_⟩
    · intro e2 he; injection he with he; subst he; exact ⟨rfl, rfl, rfl⟩
    · intro c hc; cases hc
  | ok c =>
    refine ⟨rfl, ?_, ?_⟩
    · intro e he; cases he
    · intro c2 hc; injection hc with hc; subst hc; exact ⟨rfl, rfl, rfl⟩

/-- C2: the record returned by `handleGenerateCron` is a tagged union: its error is
non-empty exactly when `generateCron` fails, exactly when its cron is empty, exactly when
its translation is empty. -/
theorem handleGenerateCron_tagged_union (input : ScheduleInput) :
    ((handleGenerateCron input).Error ≠ "" ↔ ∃ e, generateCron input = .error e) ∧
    ((handleGenerateCron input).Cron = "" ↔ ∃ e, generateCron input = .error e) ∧
    ((handleGenerateCron input).Translation = "" ↔ ∃ e, generateCron input = .error e) := by
  unfold handleGenerateCron
  cases h : generateCron input with
  | error e =>
    have hne := generateCron_error_ne_empty input e h
    exact ⟨⟨fun _ => ⟨e, rfl⟩, fun _ => hne⟩, ⟨fun _ => ⟨e, rfl⟩, fun _ => rfl⟩,
      ⟨fun _ => ⟨e, rfl⟩, fun _ => rfl⟩⟩
  | ok c =>
    have hc := generateCron_ok_ne_empty input c h
    have ht := translateCron_ne_empty input (generateCron_ok_type input c h)
    refine ⟨⟨fun hh => absurd rfl hh, ?_⟩, ⟨fun hh => absurd hh hc, ?_⟩,
      ⟨fun hh => absurd hh ht, ?_⟩⟩ <;>
    · rintro ⟨e, he⟩
      cases he

/-! ## The schedule compiler -/

theorem minuteExpr_eq (mr : Int × Int) :
    minuteExpr mr = if mr = (0, 59) then "*" else fmtInt mr.1 ++ "-" ++ fmtInt mr.2 := by
  obtain ⟨a, b⟩ := mr
  unfold minuteExpr
  by_cases h : a = 0 ∧ b = 59
  · obtain ⟨rfl, rfl⟩ := h
    simp
  · have h2 : ¬ ((a, b) = ((0 : Int), (59 : Int))) := by
      intro hh
      exact h ⟨congrArg Prod.fst hh, congrArg Prod.snd hh⟩
    have h3 : a ≠ 0 ∨ b ≠ 59 := by
      by_cases ha : a = 0
      · exact Or.inr (fun hb => h ⟨ha, hb⟩)
      · exact Or.inl ha
    rw [if_pos h3, if_neg h2]

theorem range_ne_star (x y : String) : x ++ "-" ++ y ≠ "*" := by
  intro h
  have hd := congrArg String.data h
  have hm : '-' ∈ (x ++ "-" ++ y).data := by simp
  rw [hd] at hm
  revert hm
  decide

theorem daysMap_canonical (d : String) (h : d ∈ canonicalDays) :
    daysMap d = some (dayCode d) := by
  simp only [canonicalDays, List.mem_cons, List.mem_singleton, List.not_mem_nil, or_false] at h
  rcases h with rfl | rfl | rfl | rfl | rfl | rfl | rfl <;> decide

theorem translateDaysLoop_canonical (days : List String) (acc : List Int)
    (h : ∀ d ∈ days, d ∈ canonicalDays) :
    translateDaysLoop days acc = .ok (acc ++ days.map dayCode) := by
  induction days generalizing acc with
  | nil => simp [translateDaysLoop]
  | cons d rest ih =>
    have hd := daysMap_canonical d (h d (List.mem_cons_self _ _))
    have hr : ∀ x ∈ rest, x ∈ canonicalDays := fun x hx => h x (List.mem_cons_of_mem _ hx)
    unfold translateDaysLoop
    rw [hd]
    simp only
    rw [ih _ hr]
    simp

theorem translateDaysOfWeek_canonical (days : List String)
    (h : ∀ d ∈ days, d ∈ canonicalDays) :
    translateDaysOfWeek days = .ok (days.map dayCode) := by
  unfold translateDaysOfWeek
  rw [translateDaysLoop_canonical days [] h]
  simp

/-- C6: for an input of type "Minutes", `generateCron` succeeds exactly when the interval
lies in 1..59; it then returns `*/<Interval> * * * *` with the interval in decimal, and
otherwise fails with the message "invalid minute interval: must be between 1 and 59". -/
theorem generateCron_minutes (input : ScheduleInput) (hT : input.Type_ = "Minutes") :
    ((∃ c, generateCron input = .ok c) ↔ 1 ≤ input.Interval ∧ input.Interval ≤ 59) ∧
    (1 ≤ input.Interval ∧ input.Interval ≤ 59 →
      generateCron input = .ok ("*/" ++ fmtInt input.Interval ++ " * * * *")) ∧
    (¬ (1 ≤ input.Interval ∧ input.Interval ≤ 59) →
      generateCron input = .error "invalid minute interval: must be between 1 and 59") := by
  have hg : generateCron input = parseMinutes input.Interval := by
    simp [generateCron, hT]
  rw [hg]
  unfold parseMinutes
  by_cases h : input.Interval < 1 ∨ input.Interval > 59
  · rw [if_pos h]
    refine ⟨⟨?_, ?_⟩, ?_, fun _ => rfl⟩
    · rintro ⟨c, hc⟩
      cases hc
    · intro hh
      omega
    · intro hh
      omega
  · rw [if_neg h]
    refine ⟨⟨fun _ => by omega, fun _ => ⟨_, rfl⟩⟩, fun _ => rfl, ?_⟩
    intro hh
    omega

/-- The statement of C6 at the input of type "Minutes" with interval 10. -/
theorem generateCron_minutes_witness :
    (⟨"Minutes", ("", ""), (0, 0), [], [], 10⟩ : ScheduleInput).Type_ = "Minutes" ∧
    generateCron ⟨"Minutes", ("", ""), (0, 0), [], [], 10⟩ = .ok "*/10 * * * *" ∧
    generateCron ⟨"Minutes", ("", ""), (0, 0), [], [], 70⟩ =
      .error "invalid minute interval: must be between 1 and 59" :=
  ⟨rfl,
   (generateCron_minutes ⟨"Minutes", ("", ""), (0, 0), [], [], 10⟩ rfl).2.1
     ⟨by decide, by decide⟩,
   (generateCron_minutes ⟨"Minutes", ("", ""), (0, 0), [], [], 70⟩ rfl).2.2 (by decide)⟩

/-- C7: for an input of type "Daily" whose two time strings parse to the hours `hs` and
`he`, `generateCron` returns `<minuteExpr> <hs>-<he> * * *`, the minute expression being
`*` exactly when the minute range is (0, 59) and `<start>-<end>` in decimal otherwise. -/
theorem generateCron_daily (input : ScheduleInput) (hs ms he me : Int)
    (hT : input.Type_ = "Daily")
    (h1 : parseTime input.TimeRange.1 = .ok (hs, ms))
    (h2 : parseTime input.TimeRange.2 = .ok (he, me)) :
    generateCron input =
      .ok ((if input.MinuteRange = (0, 59) then "*"
            else fmtInt input.MinuteRange.1 ++ "-" ++ fmtInt input.MinuteRange.2)
        ++ " " ++ fmtInt hs ++ "-" ++ fmtInt he ++ " * * *") ∧
    (minuteExpr input.MinuteRange = "*" ↔ input.MinuteRange = (0, 59)) := by
  constructor
  · simp [generateCron, hT, parseDailyWithRange, h1, h2, minuteExpr_eq]
  · rw [minuteExpr_eq]
    by_cases h : input.MinuteRange = (0, 59)
    · simp [h]
    · rw [if_neg h]
      exact ⟨fun hh => absurd hh (range_ne_star _ _), fun hh => absurd hh h⟩

/-- The statement of C7 at the example of the specification. -/
theorem generateCron_daily_witness :
    (⟨"Daily", ("14:00", "18:00"), (30, 45), [], [], 0⟩ : ScheduleInput).Type_ = "Daily" ∧
    parseTime "14:00" = .ok (14, 0) ∧ parseTime "18:00" = .ok (18, 0) ∧
    generateCron ⟨"Daily", ("14:00", "18:00"), (30, 45), [], [], 0⟩ =
      .ok "30-45 14-18 * * *" :=
  ⟨rfl, by decide, by decide,
   (generateCron_daily ⟨"Daily", ("14:00", "18:00"), (30, 45), [], [], 0⟩ 14 0 18 0 rfl
     (by decide) (by decide)).1⟩

/-- C8: for an input of type "Weekly" whose two time strings parse to the hours `hs` and
`he` and whose weekday names are all canonical, `generateCron` returns
`<minuteExpr> <hs>-<he> * * <codes>`, the last field being the codes of the names in input
order joined by commas; for the empty list of names that field is empty. -/
theorem generateCron_weekly (input : ScheduleInput) (hs ms he me : Int)
    (hT : input.Type_ = "Weekly")
    (h1 : parseTime input.TimeRange.1 = .ok (hs, ms))
    (h2 : parseTime input.TimeRange.2 = .ok (he, me))
    (hd : ∀ d ∈ input.DaysOfWeek, d ∈ canonicalDays) :
    generateCron input =
      .ok ((if input.MinuteRange = (0, 59) then "*"
            else fmtInt input.MinuteRange.1 ++ "-" ++ fmtInt input.MinuteRange.2)
        ++ " " ++ fmtInt hs ++ "-" ++ fmtInt he ++ " * * "
        ++ stringsJoin ((input.DaysOfWeek.map dayCode).map fmtInt) ",") ∧
    (input.DaysOfWeek = [] →
      generateCron input =
        .ok ((if input.MinuteRange = (0, 59) then "*"
              else fmtInt input.MinuteRange.1 ++ "-" ++ fmtInt input.MinuteRange.2)
          ++ " " ++ fmtInt hs ++ "-" ++ fmtInt he ++ " * * ")) := by
  have hg : generateCron input =
      .ok ((if input.MinuteRange = (0, 59) then "*"
            else fmtInt input.MinuteRange.1 ++ "-" ++ fmtInt input.MinuteRange.2)
        ++ " " ++ fmtInt hs ++ "-" ++ fmtInt he ++ " * * "
        ++ stringsJoin ((input.DaysOfWeek.map dayCode).map fmtInt) ",") := by
    simp [generateCron, hT, parseWeeklyWithRange, h1, h2,
      translateDaysOfWeek_canonical _ hd, minuteExpr_eq, joinInts]
  refine ⟨hg, ?_⟩
  intro hnil
  rw [hg, hnil]
  simp [stringsJoin]

/-- The statement of C8 at the example of the specification. -/
theorem generateCron_weekly_witness :
    (⟨"Weekly", ("10:00", "12:00"), (10, 30), ["Monday", "Wednesday"], [], 0⟩ :
      ScheduleInput).Type_ = "Weekly" ∧
    parseTime "10:00" = .ok (10, 0) ∧ parseTime "12:00" = .ok (12, 0) ∧
    (∀ d ∈ ["Monday", "Wednesday"], d ∈ canonicalDays) ∧
    generateCron ⟨"Weekly", ("10:00", "12:00"), (10, 30), ["Monday", "Wednesday"], [], 0⟩ =
      .ok "10-30 10-12 * * 1,3" ∧
    generateCron ⟨"Weekly", ("10:00", "12:00"), (10, 30), [], [], 0⟩ =
      .ok "10-30 10-12 * * " :=
  ⟨rfl, by decide, by decide, by decide,
   (generateCron_weekly
     ⟨"Weekly", ("10:00", "12:00"), (10, 30), ["Monday", "Wednesday"], [], 0⟩ 10 0 12 0 rfl
     (by decide) (by decide) (by decide)).1,
   (generateCron_weekly ⟨"Weekly", ("10:00", "12:00"), (10, 30), [], [], 0⟩ 10 0 12 0 rfl
     (by decide) (by decide) (by decide)).2 rfl⟩

/-- C9: for an input of type "Monthly" whose two time strings parse to the hours `hs` and
`he`, and for every list of dates, `generateCron` returns
`<minuteExpr> <hs>-<he> <joinInts(Dates)> * *`. -/
theorem generateCron_monthly (input : ScheduleInput) (hs ms he me : Int)
    (hT : input.Type_ = "Monthly")
    (h1 : parseTime input.TimeRange.1 = .ok (hs, ms))
    (h2 : parseTime input.TimeRange.2 = .ok (he, me)) :
    generateCron input =
      .ok ((if input.MinuteRange = (0, 59) then "*"
            else fmtInt input.MinuteRange.1 ++ "-" ++ fmtInt input.MinuteRange.2)
        ++ " " ++ fmtInt hs ++ "-" ++ fmtInt he ++ " " ++ joinInts input.Dates ++ " * *") := by
  simp [generateCron, hT, parseMonthlyWithRange, h1, h2, minuteExpr_eq]

/-- The statement of C9 at the example of the specification. -/
theorem generateCron_monthly_witness :
    (⟨"Monthly", ("18:00", "20:00"), (0, 10), [], [1, 15, 30], 0⟩ :
      ScheduleInput).Type_ = "Monthly" ∧
    parseTime "18:00" = .ok (18, 0) ∧ parseTime "20:00" = .ok (20, 0) ∧
    generateCron ⟨"Monthly", ("18:00", "20:00"), (0, 10), [], [1, 15, 30], 0⟩ =
      .ok "0-10 18-20 1,15,30 * *" :=
  ⟨rfl, by decide, by decide,
   generateCron_monthly ⟨"Monthly", ("18:00", "20:00"), (0, 10), [], [1, 15, 30], 0⟩
     18 0 20 0 rfl (by decide) (by decide)⟩

/-- C10: for an input whose type is none of "Daily", "Weekly", "Monthly", "Hourly",
"Minutes", `generateCron` fails with "invalid schedule type" whatever the other fields
hold, and `handleGenerateCron` returns an empty cron and translation with that message
as error. -/
theorem generateCron_unknown_type (input : ScheduleInput)
    (h1 : input.Type_ ≠ "Daily") (h2 : input.Type_ ≠ "Weekly") (h3 : input.Type_ ≠ "Monthly")
    (h4 : input.Type_ ≠ "Hourly") (h5 : input.Type_ ≠ "Minutes") :
    generateCron input = .error "invalid schedule type" ∧
    handleGenerateCron input =
      { CronType := input.Type_, Cron := "", Translation := "",
        Error := "invalid schedule type" } := by
  have hg : generateCron input = .error "invalid schedule type" := by
    simp [generateCron, h1, h2, h3, h4, h5]
  refine ⟨hg, ?_⟩
  unfold handleGenerateCron
  rw [hg]

/-- The statement of C10 at the type "Biweekly" of the specification. -/
theorem generateCron_unknown_type_witness :
    ("Biweekly" ≠ "Daily" ∧ "Biweekly" ≠ "Weekly" ∧ "Biweekly" ≠ "Monthly" ∧
      "Biweekly" ≠ "Hourly" ∧ "Biweekly" ≠ "Minutes") ∧
    generateCron ⟨"Biweekly", ("14:00", "18:00"), (30, 45), ["Monday"], [1], 10⟩ =
      .error "invalid schedule type" ∧
    handleGenerateCron ⟨"Biweekly", ("14:00", "18:00"), (30, 45), ["Monday"], [1], 10⟩ =
      { CronType := "Biweekly", Cron := "", Translation := "",
        Error := "invalid schedule type" } :=
  ⟨by decide,
   generateCron_unknown_type ⟨"Biweekly", ("14:00", "18:00"), (30, 45), ["Monday"], [1], 10⟩
     (by decide) (by decide) (by decide) (by decide) (by decide)⟩

/-! ## The day and date encoder -/

theorem daysMap_not_canonical (d : String) (h : d ∉ canonicalDays) : daysMap d = none := by
  simp only [canonicalDays, List.mem_cons, List.mem_singleton, List.not_mem_nil, or_false,
    not_or] at h
  obtain ⟨h0, h1, h2, h3, h4, h5, h6⟩ := h
  simp [daysMap, h0, h1, h2, h3, h4, h5, h6]

theorem translateDaysLoopPair_agrees (days : List String) (acc : List Int) :
    translateDaysLoop days acc =
      match translateDaysLoopPair days acc with
      | (codes, none) => .ok codes
      | (_, some e) => .error e := by
  induction days generalizing acc with
  | nil => rfl
  | cons d rest ih =>
    unfold translateDaysLoop translateDaysLoopPair
    cases daysMap d with
    | none => rfl
    | some num => exact ih _

theorem translateDaysLoop_unknown (pre post : List String) (bad : String) (acc : List Int)
    (hpre : ∀ d ∈ pre, d ∈ canonicalDays) (hbad : bad ∉ canonicalDays) :
    translateDaysLoop (pre ++ bad :: post) acc = .error ("invalid day of the week: " ++ bad) ∧
    translateDaysLoopPair (pre ++ bad :: post) acc =
      ([], some ("invalid day of the week: " ++ bad)) := by
  induction pre generalizing acc with
  | nil =>
    simp only [List.nil_append]
    unfold translateDaysLoop translateDaysLoopPair
    rw [daysMap_not_canonical bad hbad]
    exact ⟨rfl, rfl⟩
  | cons d rest ih =>
    have hd := daysMap_canonical d (hpre d (List.mem_cons_self _ _))
    have hr : ∀ x ∈ rest, x ∈ canonicalDays := fun x hx => hpre x (List.mem_cons_of_mem _ hx)
    simp only [List.cons_append]
    unfold translateDaysLoop translateDaysLoopPair
    rw [hd]
    exact ih _ hr

theorem exists_first_unknown (days : List String) (h : ∃ d ∈ days, d ∉ canonicalDays) :
    ∃ pre bad post, days = pre ++ bad :: post ∧ (∀ d ∈ pre, d ∈ canonicalDays) ∧
      bad ∉ canonicalDays := by
  induction days with
  | nil =>
    obtain ⟨d, hd, _⟩ := h
    cases hd
  | cons x rest ih =>
    by_cases hx : x ∈ canonicalDays
    · have hrest : ∃ d ∈ rest, d ∉ canonicalDays := by
        obtain ⟨d, hd, hn⟩ := h
        rcases List.mem_cons.mp hd with rfl | hd
        · exact absurd hx hn
        · exact ⟨d, hd, hn⟩
      obtain ⟨pre, bad, post, he, hp, hb⟩ := ih hrest
      refine ⟨x :: pre, bad, post, by rw [he]; rfl, ?_, hb⟩
      intro d hd
      rcases List.mem_cons.mp hd with rfl | hd
      · exact hx
      · exact hp d hd
    · exact ⟨[], x, rest, rfl, (fun d hd => by cases hd), hx⟩

/-- C11: for every list of names drawn from the seven canonical weekday names, repeats
allowed, `translateDaysOfWeek` succeeds with a list of the same length whose i-th element
is the table code of the i-th name (Sunday 0 up to Saturday 6), in the same order and
without removing repeats. -/
theorem translateDaysOfWeek_codes (days : List String)
    (h : ∀ d ∈ days, d ∈ canonicalDays) :
    ∃ codes, translateDaysOfWeek days = .ok codes ∧
      translateDaysOfWeekPair days = (codes, none) ∧
      codes.length = days.length ∧
      (∀ i : Nat, codes[i]? = (days[i]?).map dayCode) ∧
      canonicalDays.map dayCode = [0, 1, 2, 3, 4, 5, 6] := by
  have hok := translateDaysOfWeek_canonical days h
  refine ⟨days.map dayCode, hok, ?_, by simp, ?_, by decide⟩
  · have hag := translateDaysLoopPair_agrees days []
    unfold translateDaysOfWeek at hok
    rw [hok] at hag
    unfold translateDaysOfWeekPair
    generalize translateDaysLoopPair days [] = p at hag
    obtain ⟨codes, err⟩ := p
    cases err with
    | none =>
      simp only at hag
      injection hag with hag
      rw [hag]
    | some e =>
      simp only at hag
      cases hag
  · intro i
    simp

/-- The statement of C11 at a list with a repeated name. -/
theorem translateDaysOfWeek_codes_witness :
    (∀ d ∈ ["Saturday", "Monday", "Saturday"], d ∈ canonicalDays) ∧
    translateDaysOfWeek ["Saturday", "Monday", "Saturday"] = .ok [6, 1, 6] ∧
    ∃ codes, translateDaysOfWeek ["Saturday", "Monday", "Saturday"] = .ok codes ∧
      translateDaysOfWeekPair ["Saturday", "Monday", "Saturday"] = (codes, none) ∧
      codes.length = ["Saturday", "Monday", "Saturday"].length ∧
      (∀ i : Nat, codes[i]? = ((["Saturday", "Monday", "Saturday"])[i]?).map dayCode) ∧
      canonicalDays.map dayCode = [0, 1, 2, 3, 4, 5, 6] :=
  ⟨by decide, by decide,
   translateDaysOfWeek_codes ["Saturday", "Monday", "Saturday"] (by decide)⟩

/-- C12: for every list of names with at least one name outside the seven-entry table
(the comparison is exact and case-sensitive), `translateDaysOfWeek` fails, returns no codes
(not the codes of the names before it), and its message is "invalid day of the week: "
followed by the first such name of the list. -/
theorem translateDaysOfWeek_unknown (days : List String)
    (h : ∃ d ∈ days, d ∉ canonicalDays) :
    ∃ pre bad post, days = pre ++ bad :: post ∧ (∀ d ∈ pre, d ∈ canonicalDays) ∧
      bad ∉ canonicalDays ∧
      translateDaysOfWeek days = .error ("invalid day of the week: " ++ bad) ∧
      translateDaysOfWeekPair days = ([], some ("invalid day of the week: " ++ bad)) := by
  obtain ⟨pre, bad, post, he, hp, hb⟩ := exists_first_unknown days h
  refine ⟨pre, bad, post, he, hp, hb, ?_⟩
  rw [he]
  exact translateDaysLoop_unknown pre post bad [] hp hb

/-- The statement of C12 at a list whose second and fourth names are not in the table. -/
theorem translateDaysOfWeek_unknown_witness :
    (∃ d ∈ ["Monday", "monday", "Friday", "Funday"], d ∉ canonicalDays) ∧
    translateDaysOfWeekPair ["Monday", "monday", "Friday", "Funday"] =
      ([], some "invalid day of the week: monday") ∧
    ∃ pre bad post, ["Monday", "monday", "Friday", "Funday"] = pre ++ bad :: post ∧
      (∀ d ∈ pre, d ∈ canonicalDays) ∧ bad ∉ canonicalDays ∧
      translateDaysOfWeek ["Monday", "monday", "Friday", "Funday"] =
        .error ("invalid day of the week: " ++ bad) ∧
      translateDaysOfWeekPair ["Monday", "monday", "Friday", "Funday"] =
        ([], some ("invalid day of the week: " ++ bad)) :=
  ⟨⟨"monday", by decide, by decide⟩, by decide,
   translateDaysOfWeek_unknown ["Monday", "monday", "Friday", "Funday"]
     ⟨"monday", by decide, by decide⟩⟩

theorem digitChar_mem_decimalDigits (x : Nat) (hx : x < 10) :
    Nat.digitChar x ∈ decimalDigits := by
  interval_cases x <;> decide

theorem toDigitsCore_chars (fuel n : Nat) (ds : List Char)
    (hds : ∀ c ∈ ds, c ∈ decimalDigits) :
    ∀ c ∈ Nat.toDigitsCore 10 fuel n ds, c ∈ decimalDigits := by
  induction fuel generalizing n ds with
  | zero => simpa [Nat.toDigitsCore] using hds
  | succ fuel ih =>
    have hd : ∀ c ∈ Nat.digitChar (n % 10) :: ds, c ∈ decimalDigits := by
      intro c hc
      rcases List.mem_cons.mp hc with rfl | hc
      · exact digitChar_mem_decimalDigits _ (Nat.mod_lt _ (by decide))
      · exact hds c hc
    unfold Nat.toDigitsCore
    simp only
    split
    · exact hd
    · exact ih _ _ hd

theorem toDigitsCore_ne_nil (fuel n : Nat) (ds : List Char) (hds : ds ≠ []) :
    Nat.toDigitsCore 10 fuel n ds ≠ [] := by
  induction fuel generalizing n ds with
  | zero => simpa [Nat.toDigitsCore] using hds
  | succ fuel ih =>
    unfold Nat.toDigitsCore
    simp only
    split
    · simp
    · exact ih _ _ (by simp)

theorem natRepr_chars (n : Nat) : ∀ c ∈ (Nat.repr n).data, c ∈ decimalDigits := by
  have h := toDigitsCore_chars (n + 1) n [] (fun c hc => by cases hc)
  exact h

theorem natRepr_ne_nil (n : Nat) : (Nat.repr n).data ≠ [] := by
  show Nat.toDigitsCore 10 (n + 1) n [] ≠ []
  unfold Nat.toDigitsCore
  simp only
  split
  · simp
  · exact toDigitsCore_ne_nil _ _ _ (by simp)

theorem fmtInt_chars (n : Int) : ∀ c ∈ (fmtInt n).data, c ∈ decimalDigits ∨ c = '-' := by
  intro c hc
  cases n with
  | ofNat m => exact Or.inl (natRepr_chars m c hc)
  | negSucc m =>
    unfold fmtInt at hc
    rw [String.data_append] at hc
    rcases List.mem_append.mp hc with h | h
    · right
      have h2 : c ∈ ['-'] := h
      simpa using h2
    · exact Or.inl (natRepr_chars _ c h)

theorem fmtInt_ne_empty (n : Int) : fmtInt n ≠ "" := by
  cases n with
  | ofNat m =>
    intro h
    exact natRepr_ne_nil m (congrArg String.data h)
  | negSucc m =>
    unfold fmtInt
    simp [append_eq_empty_iff]

theorem fmtInt_no_space (n : Int) : ' ' ∉ (fmtInt n).data := by
  intro h
  rcases fmtInt_chars n ' ' h with h | h
  · revert h
    decide
  · revert h
    decide

theorem stringsJoin_append (a b : List String) (sep : String) (ha : a ≠ []) (hb : b ≠ []) :
    stringsJoin (a ++ b) sep = stringsJoin a sep ++ sep ++ stringsJoin b sep := by
  induction a with
  | nil => exact absurd rfl ha
  | cons x rest ih =>
    cases rest with
    | nil =>
      cases b with
      | nil => exact absurd rfl hb
      | cons y ys => simp [stringsJoin]
    | cons x2 rest2 =>
      have h := ih (by simp)
      simp only [List.cons_append] at h ⊢
      simp only [stringsJoin]
      rw [h]
      simp only [String.append_assoc]

theorem stringsJoin_no_char (c : Char) (l : List String) (sep : String)
    (hl : ∀ x ∈ l, c ∉ x.data) (hsep : c ∉ sep.data) : c ∉ (stringsJoin l sep).data := by
  induction l with
  | nil =>
    simp only [stringsJoin]
    intro h
    cases h
  | cons x rest ih =>
    cases rest with
    | nil => simpa [stringsJoin] using hl x (List.mem_cons_self _ _)
    | cons y ys =>
      have hx := hl x (List.mem_cons_self _ _)
      have hr := ih (fun z hz => hl z (List.mem_cons_of_mem _ hz))
      simp only [stringsJoin, String.data_append, List.mem_append, not_or]
      exact ⟨⟨hx, hsep⟩, hr⟩

theorem joinInts_no_space (nums : List Int) : ' ' ∉ (joinInts nums).data := by
  unfold joinInts
  apply stringsJoin_no_char
  · intro x hx
    obtain ⟨n, _, rfl⟩ := List.mem_map.mp hx
    exact fmtInt_no_space n
  · decide

/-- C13: `joinInts` renders a list as its decimal elements separated by single commas,
without spaces: the empty list gives the empty string, a one-element list gives the
decimal rendering of its element, and the rendering of `xs ++ ys` for non-empty `xs` and
`ys` is that of `xs`, a comma, and that of `ys`; the list 1, 15, 30 gives "1,15,30". -/
theorem joinInts_spec :
    joinInts [] = "" ∧
    (∀ n : Int, joinInts [n] = fmtInt n) ∧
    (∀ xs ys : List Int, xs ≠ [] → ys ≠ [] →
      joinInts (xs ++ ys) = joinInts xs ++ "," ++ joinInts ys) ∧
    (∀ xs : List Int, ' ' ∉ (joinInts xs).data) ∧
    joinInts [1, 15, 30] = "1,15,30" := by
  refine ⟨rfl, fun n => rfl, ?_, joinInts_no_space, by decide⟩
  intro xs ys hx hy
  unfold joinInts
  rw [List.map_append]
  exact stringsJoin_append _ _ _ (by simpa using hx) (by simpa using hy)

/-! ## The narrator -/

theorem translateOpening_eq (input : ScheduleInput) :
    translateOpening input =
      "Every minute between " ++ input.TimeRange.1 ++ " and " ++ input.TimeRange.2 ++ " " ++
        (if input.MinuteRange = (0, 59) then ""
         else "from minute " ++ fmtInt input.MinuteRange.1 ++ " to " ++
           fmtInt input.MinuteRange.2 ++ " ") := by
  unfold translateOpening
  by_cases h : input.MinuteRange = (0, 59)
  · rw [if_pos h]
    have h1 : input.MinuteRange.1 = 0 := by rw [h]
    have h2 : input.MinuteRange.2 = 59 := by rw [h]
    have hn : ¬ (input.MinuteRange.1 ≠ 0 ∨ input.MinuteRange.2 ≠ 59) := by
      rw [h1, h2]
      simp
    rw [if_neg hn]
  · rw [if_neg h]
    have hp : input.MinuteRange.1 ≠ 0 ∨ input.MinuteRange.2 ≠ 59 := by
      by_contra hc
      rw [not_or, not_not, not_not] at hc
      exact h (Prod.ext hc.1 hc.2)
    rw [if_pos hp]

/-- C14: for an input of kind Daily, Hourly, Weekly or Monthly, `translateCron` returns
"Every minute between <start> and <end> " with the raw time strings, then
"from minute <a> to <b> " exactly when the minute range (a, b) differs from (0, 59), then
the closing clause of the kind: "every day.", "every hour.", "on <names joined by ", ">."
or "on the <joinInts(Dates)> of the month.". -/
theorem translateCron_sentence (input : ScheduleInput)
    (h : input.Type_ = "Daily" ∨ input.Type_ = "Hourly" ∨ input.Type_ = "Weekly" ∨
      input.Type_ = "Monthly") :
    translateCron input =
      "Every minute between " ++ input.TimeRange.1 ++ " and " ++ input.TimeRange.2 ++ " " ++
        (if input.MinuteRange = (0, 59) then ""
         else "from minute " ++ fmtInt input.MinuteRange.1 ++ " to " ++
           fmtInt input.MinuteRange.2 ++ " ") ++
        (if input.Type_ = "Daily" then "every day."
         else if input.Type_ = "Hourly" then "every hour."
         else if input.Type_ = "Weekly" then "on " ++ stringsJoin input.DaysOfWeek ", " ++ "."
         else "on the " ++ joinInts input.Dates ++ " of the month.") := by
  rw [← translateOpening_eq]
  rcases h with h | h | h | h <;> simp [translateCron, h]

/-- The statement of C14 at the Daily example of the specification. -/
theorem translateCron_sentence_witness :
    ((⟨"Daily", ("14:00", "18:00"), (30, 45), [], [], 0⟩ : ScheduleInput).Type_ = "Daily" ∨
      (⟨"Daily", ("14:00", "18:00"), (30, 45), [], [], 0⟩ : ScheduleInput).Type_ = "Hourly" ∨
      (⟨"Daily", ("14:00", "18:00"), (30, 45), [], [], 0⟩ : ScheduleInput).Type_ = "Weekly" ∨
      (⟨"Daily", ("14:00", "18:00"), (30, 45), [], [], 0⟩ : ScheduleInput).Type_ = "Monthly") ∧
    translateCron ⟨"Daily", ("14:00", "18:00"), (30, 45), [], [], 0⟩ =
      "Every minute between 14:00 and 18:00 from minute 30 to 45 every day." :=
  ⟨Or.inl rfl,
   translateCron_sentence ⟨"Daily", ("14:00", "18:00"), (30, 45), [], [], 0⟩ (Or.inl rfl)⟩

/-- C15: for an input of type "Minutes" with an interval n in 1..59, whatever its other
fields, `handleGenerateCron` returns exactly the record with type "Minutes", cron
`*/n * * * *`, translation "Every n minutes." and empty error; the translation does not
begin with the opening clause "Every minute between". -/
theorem handleGenerateCron_minutes (input : ScheduleInput) (hT : input.Type_ = "Minutes")
    (h1 : 1 ≤ input.Interval) (h2 : input.Interval ≤ 59) :
    handleGenerateCron input =
      { CronType := "Minutes", Cron := "*/" ++ fmtInt input.Interval ++ " * * * *",
        Translation := "Every " ++ fmtInt input.Interval ++ " minutes.", Error := "" } ∧
    ¬ ("Every minute between".data <+: (handleGenerateCron input).Translation.data) := by
  have hg : generateCron input = .ok ("*/" ++ fmtInt input.Interval ++ " * * * *") := by
    have hn : ¬ (input.Interval < 1 ∨ input.Interval > 59) := by omega
    simp [generateCron, hT, parseMinutes, hn]
  have ht : translateCron input = "Every " ++ fmtInt input.Interval ++ " minutes." := by
    simp [translateCron, hT]
  have hr : handleGenerateCron input =
      { CronType := "Minutes", Cron := "*/" ++ fmtInt input.Interval ++ " * * * *",
        Translation := "Every " ++ fmtInt input.Interval ++ " minutes.", Error := "" } := by
    unfold handleGenerateCron
    rw [hg]
    simp only [ht, hT]
  refine ⟨hr, ?_⟩
  rw [hr]
  simp only
  generalize input.Interval = n at h1 h2
  interval_cases n <;> decide

/-- The statement of C15 at interval 10, the other fields being filled in. -/
theorem handleGenerateCron_minutes_witness :
    ((⟨"Minutes", ("14:00", "x"), (3, 4), ["Funday"], [40], 10⟩ : ScheduleInput).Type_ =
      "Minutes" ∧ (1 : Int) ≤ 10 ∧ (10 : Int) ≤ 59) ∧
    handleGenerateCron ⟨"Minutes", ("14:00", "x"), (3, 4), ["Funday"], [40], 10⟩ =
      { CronType := "Minutes", Cron := "*/10 * * * *", Translation := "Every 10 minutes.",
        Error := "" } :=
  ⟨⟨rfl, by decide, by decide⟩,
   (handleGenerateCron_minutes ⟨"Minutes", ("14:00", "x"), (3, 4), ["Funday"], [40], 10⟩ rfl
     (by decide) (by decide)).1⟩

/-- C16: a Daily input and an Hourly input with the same time range and minute range get
the same result from `generateCron`, the same error or the same cron string;
`parseDailyWithRange` and `parseHourlyWithRange` agree on all arguments. -/
theorem generateCron_daily_eq_hourly (d h : ScheduleInput) (hd : d.Type_ = "Daily")
    (hh : h.Type_ = "Hourly") (htr : d.TimeRange = h.TimeRange)
    (hmr : d.MinuteRange = h.MinuteRange) :
    generateCron d = generateCron h ∧
    ∀ (tr : String × String) (mr : Int × Int),
      parseDailyWithRange tr mr = parseHourlyWithRange tr mr := by
  refine ⟨?_, fun tr mr => (parseHourlyWithRange_eq_daily tr mr).symm⟩
  have e1 : generateCron d = parseDailyWithRange d.TimeRange d.MinuteRange := by
    simp [generateCron, hd]
  have e2 : generateCron h = parseHourlyWithRange h.TimeRange h.MinuteRange := by
    simp [generateCron, hh]
  rw [e1, e2, htr, hmr, parseHourlyWithRange_eq_daily]

/-- The statement of C16 at a pair of inputs that succeed and differ in the other fields. -/
theorem generateCron_daily_eq_hourly_witness :
    generateCron ⟨"Daily", ("14:00", "18:00"), (0, 15), [], [], 0⟩ = .ok "0-15 14-18 * * *" ∧
    generateCron ⟨"Daily", ("14:00", "18:00"), (0, 15), [], [], 0⟩ =
      generateCron ⟨"Hourly", ("14:00", "18:00"), (0, 15), ["Monday"], [3], 7⟩ :=
  ⟨by decide,
   (generateCron_daily_eq_hourly ⟨"Daily", ("14:00", "18:00"), (0, 15), [], [], 0⟩
     ⟨"Hourly", ("14:00", "18:00"), (0, 15), ["Monday"], [3], 7⟩ rfl rfl rfl rfl).1⟩

/-! ## Error order, irrelevant fields and validation -/

theorem translateDaysOfWeek_error_iff (days : List String) :
    (∃ e, translateDaysOfWeek days = .error e) ↔ ∃ d ∈ days, d ∉ canonicalDays := by
  constructor
  · rintro ⟨e, he⟩
    by_contra hn
    have hall : ∀ d ∈ days, d ∈ canonicalDays := by
      intro d hd
      by_contra hc
      exact hn ⟨d, hd, hc⟩
    rw [translateDaysOfWeek_canonical days hall] at he
    cases he
  · intro h
    obtain ⟨pre, bad, post, he, hp, hb⟩ := exists_first_unknown days h
    refine ⟨"invalid day of the week: " ++ bad, ?_⟩
    rw [he]
    exact (translateDaysLoop_unknown pre post bad [] hp hb).1

/-- C17: for a Weekly input, `generateCron` reports the error of the first failing step
unchanged, in the order start time, end time, weekdays: the error of `parseTime` on the
start time whatever the rest holds; otherwise the error of `parseTime` on the end time,
also when a weekday name is unknown; otherwise the error of `translateDaysOfWeek`. -/
theorem generateCron_weekly_first_error (input : ScheduleInput)
    (hT : input.Type_ = "Weekly") :
    (∀ e, parseTime input.TimeRange.1 = .error e → generateCron input = .error e) ∧
    (∀ p e, parseTime input.TimeRange.1 = .ok p → parseTime input.TimeRange.2 = .error e →
      generateCron input = .error e) ∧
    (∀ p q e, parseTime input.TimeRange.1 = .ok p → parseTime input.TimeRange.2 = .ok q →
      translateDaysOfWeek input.DaysOfWeek = .error e → generateCron input = .error e) := by
  have hg : generateCron input =
      parseWeeklyWithRange input.TimeRange input.MinuteRange input.DaysOfWeek := by
    simp [generateCron, hT]
  rw [hg]
  unfold parseWeeklyWithRange
  refine ⟨?_, ?_, ?_⟩
  · intro e h1
    rw [h1]
  · intro p e h1 h2
    rw [h1, h2]
  · intro p q e h1 h2 h3
    rw [h1, h2, h3]

/-- The statement of C17 at three inputs: all three steps fail, the last two fail, the
last one fails. -/
theorem generateCron_weekly_first_error_witness :
    generateCron ⟨"Weekly", ("25:00", "10:99"), (0, 59), ["Funday"], [], 0⟩ =
      .error "invalid hour value" ∧
    generateCron ⟨"Weekly", ("10:00", "10:99"), (0, 59), ["Funday"], [], 0⟩ =
      .error "invalid minute value" ∧
    generateCron ⟨"Weekly", ("10:00", "12:00"), (0, 59), ["Funday"], [], 0⟩ =
      .error "invalid day of the week: Funday" :=
  ⟨(generateCron_weekly_first_error
      ⟨"Weekly", ("25:00", "10:99"), (0, 59), ["Funday"], [], 0⟩ rfl).1 _ (by decide),
   (generateCron_weekly_first_error
      ⟨"Weekly", ("10:00", "10:99"), (0, 59), ["Funday"], [], 0⟩ rfl).2.1 (10, 0) _
      (by decide) (by decide),
   (generateCron_weekly_first_error
      ⟨"Weekly", ("10:00", "12:00"), (0, 59), ["Funday"], [], 0⟩ rfl).2.2 (10, 0) (12, 0) _
      (by decide) (by decide) (by decide)⟩

theorem handleGenerateCron_congr (a b : ScheduleInput) (hT : a.Type_ = b.Type_)
    (hg : generateCron a = generateCron b) (ht : translateCron a = translateCron b) :
    handleGenerateCron a = handleGenerateCron b := by
  unfold handleGenerateCron
  rw [hg, ht, hT]

theorem translateOpening_congr (a b : ScheduleInput) (htr : a.TimeRange = b.TimeRange)
    (hmr : a.MinuteRange = b.MinuteRange) : translateOpening a = translateOpening b := by
  unfold translateOpening
  rw [htr, hmr]

/-- C18: fields that are irrelevant to the kind do not influence the result: two inputs
with the same type that agree on the fields relevant to that type (Daily and Hourly: time
range and minute range; Weekly: those and the weekdays; Monthly: those and the dates;
Minutes: the interval) get identical records from `handleGenerateCron`. -/
theorem handleGenerateCron_irrelevant_fields (a b : ScheduleInput)
    (hT : a.Type_ = b.Type_)
    (hDH : a.Type_ = "Daily" ∨ a.Type_ = "Hourly" →
      a.TimeRange = b.TimeRange ∧ a.MinuteRange = b.MinuteRange)
    (hW : a.Type_ = "Weekly" →
      a.TimeRange = b.TimeRange ∧ a.MinuteRange = b.MinuteRange ∧
        a.DaysOfWeek = b.DaysOfWeek)
    (hM : a.Type_ = "Monthly" →
      a.TimeRange = b.TimeRange ∧ a.MinuteRange = b.MinuteRange ∧ a.Dates = b.Dates)
    (hMin : a.Type_ = "Minutes" → a.Interval = b.Interval) :
    handleGenerateCron a = handleGenerateCron b := by
  apply handleGenerateCron_congr a b hT
  · by_cases h1 : a.Type_ = "Daily"
    · obtain ⟨htr, hmr⟩ := hDH (Or.inl h1)
      have h1b : b.Type_ = "Daily" := by rw [← hT]; exact h1
      simp [generateCron, h1, h1b, htr, hmr]
    · by_cases h2 : a.Type_ = "Weekly"
      · obtain ⟨htr, hmr, hd⟩ := hW h2
        have h2b : b.Type_ = "Weekly" := by rw [← hT]; exact h2
        simp [generateCron, h2, h2b, htr, hmr, hd]
      · by_cases h3 : a.Type_ = "Monthly"
        · obtain ⟨htr, hmr, hd⟩ := hM h3
          have h3b : b.Type_ = "Monthly" := by rw [← hT]; exact h3
          simp [generateCron, h3, h3b, htr, hmr, hd]
        · by_cases h4 : a.Type_ = "Hourly"
          · obtain ⟨htr, hmr⟩ := hDH (Or.inr h4)
            have h4b : b.Type_ = "Hourly" := by rw [← hT]; exact h4
            simp [generateCron, h4, h4b, htr, hmr]
          · by_cases h5 : a.Type_ = "Minutes"
            · have hi := hMin h5
              have h5b : b.Type_ = "Minutes" := by rw [← hT]; exact h5
              simp [generateCron, h5, h5b, hi]
            · have g1 : b.Type_ ≠ "Daily" := by rw [← hT]; exact h1
              have g2 : b.Type_ ≠ "Weekly" := by rw [← hT]; exact h2
              have g3 : b.Type_ ≠ "Monthly" := by rw [← hT]; exact h3
              have g4 : b.Type_ ≠ "Hourly" := by rw [← hT]; exact h4
              have g5 : b.Type_ ≠ "Minutes" := by rw [← hT]; exact h5
              simp [generateCron, h1, h2, h3, h4, h5, g1, g2, g3, g4, g5]
  · by_cases h1 : a.Type_ = "Daily"
    · obtain ⟨htr, hmr⟩ := hDH (Or.inl h1)
      have h1b : b.Type_ = "Daily" := by rw [← hT]; exact h1
      simp [translateCron, h1, h1b, translateOpening_congr a b htr hmr]
    · by_cases h2 : a.Type_ = "Weekly"
      · obtain ⟨htr, hmr, hd⟩ := hW h2
        have h2b : b.Type_ = "Weekly" := by rw [← hT]; exact h2
        simp [translateCron, h2, h2b, translateOpening_congr a b htr hmr, hd]
      · by_cases h3 : a.Type_ = "Monthly"
        · obtain ⟨htr, hmr, hd⟩ := hM h3
          have h3b : b.Type_ = "Monthly" := by rw [← hT]; exact h3
          simp [translateCron, h3, h3b, translateOpening_congr a b htr hmr, hd]
        · by_cases h4 : a.Type_ = "Hourly"
          · obtain ⟨htr, hmr⟩ := hDH (Or.inr h4)
            have h4b : b.Type_ = "Hourly" := by rw [← hT]; exact h4
            simp [translateCron, h4, h4b, translateOpening_congr a b htr hmr]
          · by_cases h5 : a.Type_ = "Minutes"
            · have hi := hMin h5
              have h5b : b.Type_ = "Minutes" := by rw [← hT]; exact h5
              simp [translateCron, h5, h5b, hi]
            · have g1 : b.Type_ ≠ "Daily" := by rw [← hT]; exact h1
              have g2 : b.Type_ ≠ "Weekly" := by rw [← hT]; exact h2
              have g3 : b.Type_ ≠ "Monthly" := by rw [← hT]; exact h3
              have g4 : b.Type_ ≠ "Hourly" := by rw [← hT]; exact h4
              have g5 : b.Type_ ≠ "Minutes" := by rw [← hT]; exact h5
              simp [translateCron, h1, h2, h3, h4, h5, g1, g2, g3, g4, g5]

/-- The statement of C18 at two Weekly inputs that differ in dates and interval only. -/
theorem handleGenerateCron_irrelevant_fields_witness :
    handleGenerateCron ⟨"Weekly", ("10:00", "12:00"), (10, 30), ["Monday"], [], 0⟩ =
      handleGenerateCron ⟨"Weekly", ("10:00", "12:00"), (10, 30), ["Monday"], [4, 5], 99⟩ ∧
    handleGenerateCron ⟨"Weekly", ("10:00", "12:00"), (10, 30), ["Monday"], [4, 5], 99⟩ =
      { CronType := "Weekly", Cron := "10-30 10-12 * * 1",
        Translation := "Every minute between 10:00 and 12:00 from minute 10 to 30 on Monday.",
        Error := "" } :=
  ⟨handleGenerateCron_irrelevant_fields
     ⟨"Weekly", ("10:00", "12:00"), (10, 30), ["Monday"], [], 0⟩
     ⟨"Weekly", ("10:00", "12:00"), (10, 30), ["Monday"], [4, 5], 99⟩ rfl
     (fun _ => ⟨rfl, rfl⟩) (fun _ => ⟨rfl, rfl, rfl⟩) (fun h => absurd h (by decide))
     (fun h => absurd h (by decide)),
   by decide⟩

/-- C19: validation is limited to time strings and weekday names: for a Daily, Hourly,
Monthly or Weekly input `generateCron` fails exactly when `parseTime` fails on the start
time or on the end time or, for Weekly only, some weekday name is outside the table; the
minute range, the dates and the order of the two hours play no part. -/
theorem generateCron_fails_iff (input : ScheduleInput)
    (h : input.Type_ = "Daily" ∨ input.Type_ = "Hourly" ∨ input.Type_ = "Monthly" ∨
      input.Type_ = "Weekly") :
    (∃ e, generateCron input = .error e) ↔
      ((∃ e, parseTime input.TimeRange.1 = .error e) ∨
       (∃ e, parseTime input.TimeRange.2 = .error e) ∨
       (input.Type_ = "Weekly" ∧ ∃ d ∈ input.DaysOfWeek, d ∉ canonicalDays)) := by
  rcases h with h | h | h | h
  · have hg : generateCron input = parseDailyWithRange input.TimeRange input.MinuteRange := by
      simp [generateCron, h]
    have hw : input.Type_ ≠ "Weekly" := by rw [h]; decide
    rw [hg]
    rcases parseDailyWithRange_cases input.TimeRange input.MinuteRange with
      ⟨e, h1, h2⟩ | ⟨_, _, e, _, h1, h2⟩ | ⟨_, _, _, _, h1, h2, h3⟩
    · exact ⟨fun _ => Or.inl ⟨e, h1⟩, fun _ => ⟨e, h2⟩⟩
    · exact ⟨fun _ => Or.inr (Or.inl ⟨e, h1⟩), fun _ => ⟨e, h2⟩⟩
    · rw [h3, h1, h2]
      simp [hw]
  · have hg : generateCron input = parseDailyWithRange input.TimeRange input.MinuteRange := by
      simp [generateCron, h, parseHourlyWithRange_eq_daily]
    have hw : input.Type_ ≠ "Weekly" := by rw [h]; decide
    rw [hg]
    rcases parseDailyWithRange_cases input.TimeRange input.MinuteRange with
      ⟨e, h1, h2⟩ | ⟨_, _, e, _, h1, h2⟩ | ⟨_, _, _, _, h1, h2, h3⟩
    · exact ⟨fun _ => Or.inl ⟨e, h1⟩, fun _ => ⟨e, h2⟩⟩
    · exact ⟨fun _ => Or.inr (Or.inl ⟨e, h1⟩), fun _ => ⟨e, h2⟩⟩
    · rw [h3, h1, h2]
      simp [hw]
  · have hg : generateCron input =
        parseMonthlyWithRange input.TimeRange input.MinuteRange input.Dates := by
      simp [generateCron, h]
    have hw : input.Type_ ≠ "Weekly" := by rw [h]; decide
    rw [hg]
    rcases parseMonthlyWithRange_cases input.TimeRange input.MinuteRange input.Dates with
      ⟨e, h1, h2⟩ | ⟨_, _, e, _, h1, h2⟩ | ⟨_, _, _, _, h1, h2, h3⟩
    · exact ⟨fun _ => Or.inl ⟨e, h1⟩, fun _ => ⟨e, h2⟩⟩
    · exact ⟨fun _ => Or.inr (Or.inl ⟨e, h1⟩), fun _ => ⟨e, h2⟩⟩
    · rw [h3, h1, h2]
      simp [hw]
  · have hg : generateCron input =
        parseWeeklyWithRange input.TimeRange input.MinuteRange input.DaysOfWeek := by
      simp [generateCron, h]
    rw [hg]
    rcases parseWeeklyWithRange_cases input.TimeRange input.MinuteRange input.DaysOfWeek with
      ⟨e, h1, h2⟩ | ⟨_, _, e, _, h1, h2⟩ | ⟨_, _, _, _, e, _, _, h1, h2⟩ |
      ⟨_, _, _, _, codes, h1, h2, h3, h4⟩
    · exact ⟨fun _ => Or.inl ⟨e, h1⟩, fun _ => ⟨e, h2⟩⟩
    · exact ⟨fun _ => Or.inr (Or.inl ⟨e, h1⟩), fun _ => ⟨e, h2⟩⟩
    · exact ⟨fun _ => Or.inr (Or.inr ⟨h, (translateDaysOfWeek_error_iff _).mp ⟨e, h1⟩⟩),
        fun _ => ⟨e, h2⟩⟩
    · have hno : ¬ ∃ d ∈ input.DaysOfWeek, d ∉ canonicalDays := by
        intro hex
        obtain ⟨e, he⟩ := (translateDaysOfWeek_error_iff _).mpr hex
        rw [h3] at he
        cases he
      rw [h4]
      constructor
      · rintro ⟨e, he⟩
        cases he
      · rintro (⟨e, he⟩ | ⟨e, he⟩ | ⟨_, hex⟩)
        · rw [h1] at he
          cases he
        · rw [h2] at he
          cases he
        · exact absurd hex hno

/-- The statement of C19 at a Monthly input with an end hour before the start hour, a
minute range outside 0..59 in decreasing order, and dates outside the calendar. -/
theorem generateCron_fails_iff_witness :
    generateCron ⟨"Monthly", ("23:00", "01:00"), (99, -5), [], [0, 32, -1], 0⟩ =
      .ok "99--5 23-1 0,32,-1 * *" ∧
    ((∃ e, generateCron ⟨"Monthly", ("23:00", "01:00"), (99, -5), [], [0, 32, -1], 0⟩ =
        .error e) ↔
      ((∃ e, parseTime "23:00" = .error e) ∨ (∃ e, parseTime "01:00" = .error e) ∨
       ("Monthly" = "Weekly" ∧ ∃ d ∈ ([] : List String), d ∉ canonicalDays))) :=
  ⟨by decide,
   generateCron_fails_iff ⟨"Monthly", ("23:00", "01:00"), (99, -5), [], [0, 32, -1], 0⟩
     (Or.inr (Or.inr (Or.inl rfl)))⟩

/-! ## The shape of the cron expression -/

theorem splitChars_append_sep (sep : Char) (a rest : List Char) (ha : sep ∉ a) :
    splitChars sep (a ++ sep :: rest) = a :: splitChars sep rest := by
  induction a with
  | nil => simp [splitChars]
  | cons c a ih =>
    have hc : c ≠ sep := fun hh => ha (by rw [hh]; exact List.mem_cons_self _ _)
    have hr : sep ∉ a := fun hh => ha (List.mem_cons_of_mem _ hh)
    rw [List.cons_append, splitChars, if_neg hc, ih hr]

theorem splitChars_no_sep (sep : Char) (a : List Char) (ha : sep ∉ a) :
    splitChars sep a = [a] :=
  splitChars_of_count_zero sep a (List.count_eq_zero.mpr ha)

theorem splitChars_five (f1 f2 f3 f4 f5 : List Char) (h1 : ' ' ∉ f1) (h2 : ' ' ∉ f2)
    (h3 : ' ' ∉ f3) (h4 : ' ' ∉ f4) (h5 : ' ' ∉ f5) :
    splitChars ' ' (f1 ++ ' ' :: (f2 ++ ' ' :: (f3 ++ ' ' :: (f4 ++ ' ' :: f5)))) =
      [f1, f2, f3, f4, f5] := by
  rw [splitChars_append_sep _ _ _ h1, splitChars_append_sep _ _ _ h2,
    splitChars_append_sep _ _ _ h3, splitChars_append_sep _ _ _ h4, splitChars_no_sep _ _ h5]

theorem range_no_space (a b : Int) : ' ' ∉ (fmtInt a ++ "-" ++ fmtInt b).data := by
  have ha := fmtInt_no_space a
  have hb := fmtInt_no_space b
  simp only [String.data_append, List.mem_append, not_or]
  exact ⟨⟨ha, by decide⟩, hb⟩

theorem range_ne_nil (a b : Int) : (fmtInt a ++ "-" ++ fmtInt b).data ≠ [] := by
  intro h
  have h2 : fmtInt a ++ "-" ++ fmtInt b = "" := String.ext h
  simp [append_eq_empty_iff] at h2

theorem minuteExpr_no_space (mr : Int × Int) : ' ' ∉ (minuteExpr mr).data := by
  unfold minuteExpr
  split
  · exact range_no_space _ _
  · decide

theorem minuteExpr_ne_nil (mr : Int × Int) : (minuteExpr mr).data ≠ [] := by
  unfold minuteExpr
  split
  · exact range_ne_nil _ _
  · decide

theorem joinInts_ne_nil (nums : List Int) (h : nums ≠ []) : (joinInts nums).data ≠ [] := by
  intro hd
  have h2 : joinInts nums = "" := String.ext hd
  cases nums with
  | nil => exact h rfl
  | cons x rest =>
    cases rest with
    | nil => exact fmtInt_ne_empty x h2
    | cons y ys =>
      simp only [joinInts, List.map_cons, stringsJoin, append_eq_empty_iff] at h2
      exact fmtInt_ne_empty x h2.1.1

theorem translateDaysOfWeek_ok (days : List String) (codes : List Int)
    (h : translateDaysOfWeek days = .ok codes) : codes = days.map dayCode := by
  by_cases hall : ∀ d ∈ days, d ∈ canonicalDays
  · rw [translateDaysOfWeek_canonical days hall] at h
    injection h with h
    exact h.symm
  · have hex : ∃ d ∈ days, d ∉ canonicalDays := by
      by_contra hn
      apply hall
      intro d hd
      by_contra hc
      exact hn ⟨d, hd, hc⟩
    obtain ⟨e, he⟩ := (translateDaysOfWeek_error_iff days).mpr hex
    rw [he] at h
    cases h

theorem daily_shape (mr : Int × Int) (hs he : Int) :
    (minuteExpr mr ++ " " ++ fmtInt hs ++ "-" ++ fmtInt he ++ " * * *").data =
      (minuteExpr mr).data ++ ' ' :: ((fmtInt hs ++ "-" ++ fmtInt he).data ++
        ' ' :: (['*'] ++ ' ' :: (['*'] ++ ' ' :: ['*']))) := by
  have e1 : (" " : String).data = [' '] := rfl
  have e2 : (" * * *" : String).data = [' ', '*', ' ', '*', ' ', '*'] := rfl
  simp only [String.data_append, e1, e2, List.append_assoc, List.cons_append, List.nil_append]

theorem weekly_shape (mr : Int × Int) (hs he : Int) (l : String) :
    (minuteExpr mr ++ " " ++ fmtInt hs ++ "-" ++ fmtInt he ++ " * * " ++ l).data =
      (minuteExpr mr).data ++ ' ' :: ((fmtInt hs ++ "-" ++ fmtInt he).data ++
        ' ' :: (['*'] ++ ' ' :: (['*'] ++ ' ' :: l.data))) := by
  have e1 : (" " : String).data = [' '] := rfl
  have e2 : (" * * " : String).data = [' ', '*', ' ', '*', ' '] := rfl
  simp only [String.data_append, e1, e2, List.append_assoc, List.cons_append, List.nil_append]

theorem monthly_shape (mr : Int × Int) (hs he : Int) (l : String) :
    (minuteExpr mr ++ " " ++ fmtInt hs ++ "-" ++ fmtInt he ++ " " ++ l ++ " * *").data =
      (minuteExpr mr).data ++ ' ' :: ((fmtInt hs ++ "-" ++ fmtInt he).data ++
        ' ' :: (l.data ++ ' ' :: (['*'] ++ ' ' :: ['*']))) := by
  have e1 : (" " : String).data = [' '] := rfl
  have e2 : (" * *" : String).data = [' ', '*', ' ', '*'] := rfl
  simp only [String.data_append, e1, e2, List.append_assoc, List.cons_append, List.nil_append]

theorem minutes_shape (n : Int) :
    ("*/" ++ fmtInt n ++ " * * * *").data =
      ("*/" ++ fmtInt n).data ++ ' ' :: (['*'] ++ ' ' :: (['*'] ++
        ' ' :: (['*'] ++ ' ' :: ['*']))) := by
  have e2 : (" * * * *" : String).data = [' ', '*', ' ', '*', ' ', '*', ' ', '*'] := rfl
  simp only [String.data_append, e2, List.append_assoc, List.cons_append, List.nil_append]

theorem star_no_space : ' ' ∉ ['*'] := by decide

theorem star_ne_nil : ['*'] ≠ [] := by decide

theorem generateCron_shape (input : ScheduleInput) (c : String)
    (h : generateCron input = .ok c) :
    ∃ f1 f2 f3 f4 f5 : List Char,
      c.data = f1 ++ ' ' :: (f2 ++ ' ' :: (f3 ++ ' ' :: (f4 ++ ' ' :: f5))) ∧
      ' ' ∉ f1 ∧ ' ' ∉ f2 ∧ ' ' ∉ f3 ∧ ' ' ∉ f4 ∧ ' ' ∉ f5 ∧
      f1 ≠ [] ∧ f2 ≠ [] ∧ ((input.Type_ = "Monthly" → input.Dates ≠ []) → f3 ≠ []) ∧
      f4 ≠ [] ∧ ((input.Type_ = "Weekly" → input.DaysOfWeek ≠ []) → f5 ≠ []) := by
  have hdaily : ∀ c2, parseDailyWithRange input.TimeRange input.MinuteRange = .ok c2 →
      ∃ f1 f2 f3 f4 f5 : List Char,
        c2.data = f1 ++ ' ' :: (f2 ++ ' ' :: (f3 ++ ' ' :: (f4 ++ ' ' :: f5))) ∧
        ' ' ∉ f1 ∧ ' ' ∉ f2 ∧ ' ' ∉ f3 ∧ ' ' ∉ f4 ∧ ' ' ∉ f5 ∧
        f1 ≠ [] ∧ f2 ≠ [] ∧ f3 ≠ [] ∧ f4 ≠ [] ∧ f5 ≠ [] := by
    intro c2 hc2
    rcases parseDailyWithRange_cases input.TimeRange input.MinuteRange with
      ⟨_, _, h2⟩ | ⟨_, _, _, _, _, h2⟩ | ⟨hs, _, he, _, _, _, h2⟩
    · rw [h2] at hc2; cases hc2
    · rw [h2] at hc2; cases hc2
    · rw [h2] at hc2
      injection hc2 with hc2
      subst hc2
      exact ⟨_, _, _, _, _, daily_shape _ hs he, minuteExpr_no_space _, range_no_space _ _,
        star_no_space, star_no_space, star_no_space, minuteExpr_ne_nil _, range_ne_nil _ _,
        star_ne_nil, star_ne_nil, star_ne_nil⟩
  by_cases t1 : input.Type_ = "Daily"
  · have hg : generateCron input = parseDailyWithRange input.TimeRange input.MinuteRange := by
      simp [generateCron, t1]
    rw [hg] at h
    obtain ⟨f1, f2, f3, f4, f5, e, a1, a2, a3, a4, a5, b1, b2, b3, b4, b5⟩ := hdaily c h
    exact ⟨f1, f2, f3, f4, f5, e, a1, a2, a3, a4, a5, b1, b2, fun _ => b3, b4, fun _ => b5⟩
  by_cases t2 : input.Type_ = "Weekly"
  · have hg : generateCron input =
        parseWeeklyWithRange input.TimeRange input.MinuteRange input.DaysOfWeek := by
      simp [generateCron, t2]
    rw [hg] at h
    rcases parseWeeklyWithRange_cases input.TimeRange input.MinuteRange input.DaysOfWeek with
      ⟨_, _, h2⟩ | ⟨_, _, _, _, _, h2⟩ | ⟨_, _, _, _, _, _, _, _, h2⟩ |
      ⟨hs, _, he, _, codes, _, _, h3, h2⟩
    · rw [h2] at h; cases h
    · rw [h2] at h; cases h
    · rw [h2] at h; cases h
    · rw [h2] at h
      injection h with h
      subst h
      have hcodes := translateDaysOfWeek_ok _ _ h3
      refine ⟨_, _, _, _, _, weekly_shape _ hs he _, minuteExpr_no_space _,
        range_no_space _ _, star_no_space, star_no_space, joinInts_no_space _,
        minuteExpr_ne_nil _, range_ne_nil _ _, fun _ => star_ne_nil, star_ne_nil, ?_⟩
      intro hne
      apply joinInts_ne_nil
      rw [hcodes]
      simpa using hne t2
  by_cases t3 : input.Type_ = "Monthly"
  · have hg : generateCron input =
        parseMonthlyWithRange input.TimeRange input.MinuteRange input.Dates := by
      simp [generateCron, t3]
    rw [hg] at h
    rcases parseMonthlyWithRange_cases input.TimeRange input.MinuteRange input.Dates with
      ⟨_, _, h2⟩ | ⟨_, _, _, _, _, h2⟩ | ⟨hs, _, he, _, _, _, h2⟩
    · rw [h2] at h; cases h
    · rw [h2] at h; cases h
    · rw [h2] at h
      injection h with h
      subst h
      exact ⟨_, _, _, _, _, monthly_shape _ hs he _, minuteExpr_no_space _,
        range_no_space _ _, joinInts_no_space _, star_no_space, star_no_space,
        minuteExpr_ne_nil _, range_ne_nil _ _, fun hne => joinInts_ne_nil _ (hne t3),
        star_ne_nil, fun _ => star_ne_nil⟩
  by_cases t4 : input.Type_ = "Hourly"
  · have hg : generateCron input = parseDailyWithRange input.TimeRange input.MinuteRange := by
      simp [generateCron, t4, parseHourlyWithRange_eq_daily]
    rw [hg] at h
    obtain ⟨f1, f2, f3, f4, f5, e, a1, a2, a3, a4, a5, b1, b2, b3, b4, b5⟩ := hdaily c h
    exact ⟨f1, f2, f3, f4, f5, e, a1, a2, a3, a4, a5, b1, b2, fun _ => b3, b4, fun _ => b5⟩
  by_cases t5 : input.Type_ = "Minutes"
  · have hg : generateCron input = parseMinutes input.Interval := by
      simp [generateCron, t5]
    rw [hg] at h
    unfold parseMinutes at h
    split at h
    · cases h
    · injection h with h
      subst h
      have n1 : ' ' ∉ ("*/" ++ fmtInt input.Interval).data := by
        have hf := fmtInt_no_space input.Interval
        simp only [String.data_append, List.mem_append, not_or]
        exact ⟨by decide, hf⟩
      have n2 : ("*/" ++ fmtInt input.Interval).data ≠ [] := by
        intro hd
        have h2 : "*/" ++ fmtInt input.Interval = "" := String.ext hd
        simp [append_eq_empty_iff] at h2
      exact ⟨_, _, _, _, _, minutes_shape _, n1, star_no_space, star_no_space,
        star_no_space, star_no_space, n2, star_ne_nil, fun _ => star_ne_nil, star_ne_nil,
        fun _ => star_ne_nil⟩
  · simp [generateCron, t1, t2, t3, t4, t5] at h

/-- C20: every cron string that `generateCron` returns contains exactly four spaces, so
that splitting it at the spaces gives exactly five fields; all five fields are non-empty
provided the weekday list of a Weekly input and the date list of a Monthly input are
non-empty, and without condition for Daily, Hourly and Minutes. -/
theorem generateCron_five_fields (input : ScheduleInput) (c : String)
    (h : generateCron input = .ok c) :
    c.data.count ' ' = 4 ∧ (stringsSplit c ' ').length = 5 ∧
    ((input.Type_ = "Weekly" → input.DaysOfWeek ≠ []) →
      (input.Type_ = "Monthly" → input.Dates ≠ []) →
      ∀ f ∈ stringsSplit c ' ', f ≠ "") := by
  obtain ⟨f1, f2, f3, f4, f5, e, a1, a2, a3, a4, a5, b1, b2, b3, b4, b5⟩ :=
    generateCron_shape input c h
  have hsplit : splitChars ' ' c.data = [f1, f2, f3, f4, f5] := by
    rw [e]
    exact splitChars_five f1 f2 f3 f4 f5 a1 a2 a3 a4 a5
  have hlen := splitChars_length ' ' c.data
  rw [hsplit] at hlen
  refine ⟨?_, ?_, ?_⟩
  · simp only [List.length_cons, List.length_nil] at hlen
    omega
  · unfold stringsSplit
    rw [hsplit]
    rfl
  · intro hw hm f hf
    unfold stringsSplit at hf
    rw [hsplit] at hf
    simp only [List.map_cons, List.map_nil, List.mem_cons, List.mem_singleton,
      List.not_mem_nil, or_false] at hf
    have key : ∀ l : List Char, l ≠ [] → String.mk l ≠ "" := by
      intro l hl heq
      exact hl (congrArg String.data heq)
    rcases hf with rfl | rfl | rfl | rfl | rfl
    · exact key _ b1
    · exact key _ b2
    · exact key _ (b3 hm)
    · exact key _ b4
    · exact key _ (b5 hw)

/-- The statement of C20 at the Weekly example of the specification. -/
theorem generateCron_five_fields_witness :
    generateCron ⟨"Weekly", ("10:00", "12:00"), (10, 30), ["Monday", "Wednesday"], [], 0⟩ =
      .ok "10-30 10-12 * * 1,3" ∧
    stringsSplit "10-30 10-12 * * 1,3" ' ' = ["10-30", "10-12", "*", "*", "1,3"] ∧
    ("10-30 10-12 * * 1,3".data.count ' ' = 4 ∧
      (stringsSplit "10-30 10-12 * * 1,3" ' ').length = 5 ∧
      (("Weekly" = "Weekly" → ["Monday", "Wednesday"] ≠ []) →
        ("Weekly" = "Monthly" → ([] : List Int) ≠ []) →
        ∀ f ∈ stringsSplit "10-30 10-12 * * 1,3" ' ', f ≠ "")) :=
  ⟨by decide, by decide,
   generateCron_five_fields
     ⟨"Weekly", ("10:00", "12:00"), (10, 30), ["Monday", "Wednesday"], [], 0⟩
     "10-30 10-12 * * 1,3" (by decide)⟩

end CronTranslator
